import Mathlib

/-!
Shallow embedding of `src/Solution.py` (an apartment-rental database layer:
PostgreSQL tables/views created in `create_tables`, plus Python API functions).

Modelling conventions:
* Tables are lists of rows inside a `Store`; SQL views become Lean functions
  from a `Store` to a list of rows, translated clause by clause.
* SQL `DATE` becomes a `(year, month, day)` record compared lexicographically
  (chronological order for calendar dates); `end_date - start_date` is the
  difference of day numbers (`Date.toRD`, the standard civil-calendar day
  count).
* SQL numeric values (prices, averages, ratios) are embedded as `ℚ`.
* The `ReturnValue` enum comes from `Utility/ReturnValue.py` (not under
  `src/`); its constructors are exactly the ones named by `Solution.py`.
* PostgreSQL behaviour that the Python relies on is embedded explicitly:
  `INSERT ... SELECT ... WHERE cond` affects 0 rows when `cond` fails;
  row `CHECK` constraints are evaluated before unique-index insertion, which
  precedes foreign-key enforcement; exception handlers map the constraint
  classes to return values exactly as the `except` clauses do.
-/

open scoped List

/-- `Utility.ReturnValue.ReturnValue` as used by `Solution.py`. -/
inductive ReturnValue where
  | OK
  | NOT_EXISTS
  | ALREADY_EXISTS
  | BAD_PARAMS
  | ERROR
deriving DecidableEq, Repr

/-- A calendar date, compared lexicographically (the order PostgreSQL uses on
`DATE` values, restricted to calendar dates). -/
structure Date where
  y : ℤ
  m : ℤ
  d : ℤ
deriving DecidableEq, Repr

/-- Chronological strict order on dates (lexicographic on year, month, day). -/
def Date.lt (a b : Date) : Prop :=
  a.y < b.y ∨ (a.y = b.y ∧ (a.m < b.m ∨ (a.m = b.m ∧ a.d < b.d)))

instance : LT Date := ⟨Date.lt⟩

instance (a b : Date) : Decidable (a < b) := by
  show Decidable (Date.lt a b); unfold Date.lt; infer_instance

/-- Chronological order on dates. -/
def Date.le (a b : Date) : Prop := a < b ∨ a = b

instance : LE Date := ⟨Date.le⟩

instance (a b : Date) : Decidable (a ≤ b) := by
  show Decidable (Date.le a b); unfold Date.le; infer_instance

theorem Date.le_refl (a : Date) : a ≤ a := Or.inr rfl

/-- Day number of a calendar date (days-from-civil algorithm); embeds
PostgreSQL date subtraction: `d1 - d2` in days is `d1.toRD - d2.toRD`. -/
def Date.toRD (dt : Date) : ℤ :=
  let y := if dt.m ≤ 2 then dt.y - 1 else dt.y
  let era := Int.fdiv y 400
  let yoe := y - era * 400
  let mp := Int.fmod (dt.m + 9) 12
  let doy := Int.fdiv (153 * mp + 2) 5 + dt.d - 1
  let doe := yoe * 365 + Int.fdiv yoe 4 - Int.fdiv yoe 100 + doy
  era * 146097 + doe - 719468

/-- PostgreSQL `end_date - start_date` (number of days). -/
def dateDiff (a b : Date) : ℤ := a.toRD - b.toRD

/-- A row of table `Owner`. -/
structure OwnerRow where
  id : ℤ
  name : String
deriving DecidableEq, Repr, Inhabited

/-- A row of table `Apartment`. -/
structure ApartmentRow where
  id : ℤ
  address : String
  city : String
  country : String
  size : ℤ
deriving DecidableEq, Repr, Inhabited

/-- A row of table `Customer`. -/
structure CustomerRow where
  id : ℤ
  name : String
deriving DecidableEq, Repr

/-- A row of table `CustomerReservations`. -/
structure Reservation where
  customer : ℤ
  apartment : ℤ
  startDate : Date
  endDate : Date
  totalPrice : ℚ
deriving DecidableEq, Repr

/-- A row of table `CustomerReviews`. -/
structure Review where
  customer : ℤ
  apartment : ℤ
  reviewDate : Date
  rating : ℤ
  text : String
deriving DecidableEq, Repr

/-- A row of table `ApartmentOwners`. -/
structure OwnLink where
  owner : ℤ
  apartment : ℤ
deriving DecidableEq, Repr

/-- The database state: one list per table of `create_tables`. -/
structure Store where
  owners : List OwnerRow
  apartments : List ApartmentRow
  customers : List CustomerRow
  reservations : List Reservation
  reviews : List Review
  links : List OwnLink
deriving DecidableEq, Repr

/-- The constraints `create_tables` installs (primary keys, uniqueness,
checks, foreign keys), as an invariant on the store; `resMonthValid` records
that a stored `DATE` always has a calendar month 1..12. -/
structure WF (s : Store) : Prop where
  ownersNodup : (s.owners.map OwnerRow.id).Nodup
  apartmentsNodup : (s.apartments.map ApartmentRow.id).Nodup
  customersNodup : (s.customers.map CustomerRow.id).Nodup
  linksNodup : (s.links.map OwnLink.apartment).Nodup
  linksFKo : ∀ l ∈ s.links, l.owner ∈ s.owners.map OwnerRow.id
  linksFKa : ∀ l ∈ s.links, l.apartment ∈ s.apartments.map ApartmentRow.id
  resFKc : ∀ r ∈ s.reservations, r.customer ∈ s.customers.map CustomerRow.id
  resFKa : ∀ r ∈ s.reservations, r.apartment ∈ s.apartments.map ApartmentRow.id
  resPos : ∀ r ∈ s.reservations, 0 < r.customer ∧ 0 < r.apartment
  resPrice : ∀ r ∈ s.reservations, 0 < r.totalPrice
  resDates : ∀ r ∈ s.reservations, r.startDate < r.endDate
  resUnique : (s.reservations.map (fun r => (r.apartment, r.startDate))).Nodup
  resMonthValid : ∀ r ∈ s.reservations, 1 ≤ r.endDate.m ∧ r.endDate.m ≤ 12
  revFKc : ∀ v ∈ s.reviews, v.customer ∈ s.customers.map CustomerRow.id
  revFKa : ∀ v ∈ s.reviews, v.apartment ∈ s.apartments.map ApartmentRow.id
  revPos : ∀ v ∈ s.reviews, 0 < v.customer ∧ 0 < v.apartment
  revRating : ∀ v ∈ s.reviews, 1 ≤ v.rating ∧ v.rating ≤ 10
  revUnique : (s.reviews.map (fun v => (v.customer, v.apartment))).Nodup

/-- SQL `AVG` over a list of rationals (callers guard the empty case the way
the SQL does, with `COALESCE`). -/
def avgQ (l : List ℚ) : ℚ := l.sum / l.length

/-- SQL `AVG` where the aggregated expression may be `NULL`: `NULL` entries
are ignored, and an all-`NULL` group yields `NULL`, which every use in
`Solution.py` wraps in `COALESCE(..., 0)`. -/
def avgOptCoalesce (l : List (Option ℚ)) : ℚ :=
  let vs := l.filterMap id
  if vs.isEmpty then 0 else avgQ vs

/-- SQL `GROUP BY`: one output row per distinct key (first-occurrence order),
whose value aggregates the input rows having that key. -/
def sqlGroup {ρ κ α : Type} [DecidableEq κ] (rows : List ρ) (key : ρ → κ)
    (agg : List ρ → α) : List (κ × α) :=
  ((rows.map key).dedup).map
    (fun k => (k, agg (rows.filter (fun r => decide (key r = k)))))

/-- SQL `LEFT OUTER JOIN`: every left row appears, paired with each matching
right row, or with `NULL` when none matches. -/
def leftJoin {α β : Type} (ls : List α) (rs : List β) (on_ : α → β → Bool) :
    List (α × Option β) :=
  ls.flatMap (fun l =>
    let ms := rs.filter (on_ l)
    if ms.isEmpty then [(l, none)] else ms.map (fun r => (l, some r)))

/-- SQL `RIGHT OUTER JOIN`: every right row appears, paired with each matching
left row, or with `NULL` when none matches. -/
def rightJoin {α β : Type} (ls : List α) (rs : List β) (on_ : α → β → Bool) :
    List (Option α × β) :=
  rs.flatMap (fun r =>
    let ms := ls.filter (fun l => on_ l r)
    if ms.isEmpty then [(none, r)] else ms.map (fun l => (some l, r)))

/-- SQL `FULL OUTER JOIN`. -/
def fullJoin {α β : Type} (ls : List α) (rs : List β) (on_ : α → β → Bool) :
    List (Option α × Option β) :=
  ls.flatMap (fun l =>
    let ms := rs.filter (on_ l)
    if ms.isEmpty then [(some l, none)] else ms.map (fun r => (some l, some r)))
  ++ (rs.filter (fun r => !ls.any (fun l => on_ l r))).map (fun r => (none, some r))

/-- A row of view `ApartmentOwnersFullData`
(`SELECT A.owner_id, O.owner_name, B.* FROM ApartmentOwners A
JOIN Owner O ON A.owner_id = O.owner_id
JOIN Apartment B ON A.apartment_id = B.apartment_id`). -/
structure AOFDRow where
  owner : ℤ
  ownerName : String
  apt : ApartmentRow
deriving DecidableEq, Repr

/-- View `ApartmentOwnersFullData`. -/
def apartmentOwnersFullData (s : Store) : List AOFDRow :=
  s.links.flatMap (fun l =>
    (s.owners.filter (fun o => decide (l.owner = o.id))).flatMap (fun o =>
      (s.apartments.filter (fun b => decide (l.apartment = b.id))).map (fun b =>
        ⟨l.owner, o.name, b⟩)))

/-- View `ApartmentReviewsFullData`
(`SELECT owner_id, C.apartment_id, owner_name, customer_id, review_date,
rating, review_text FROM ApartmentOwnersFullData A
RIGHT OUTER JOIN CustomerReviews C ON (A.apartment_id = C.apartment_id)`);
the second component carries the review columns, the first the (nullable)
owner-side columns. -/
def apartmentReviewsFullData (s : Store) : List (Option AOFDRow × Review) :=
  rightJoin (apartmentOwnersFullData s) s.reviews
    (fun a c => decide (a.apt.id = c.apartment))

/-- View `ApartmentAvgRating`
(`SELECT A.owner_id, A.apartment_id, COALESCE(AVG(rating), 0) AS avg_rating
FROM ApartmentOwners A LEFT JOIN ApartmentReviewsFullData B
ON (A.apartment_id = B.apartment_id) GROUP BY A.apartment_id, A.owner_id`);
keyed by `(apartment_id, owner_id)`. -/
def apartmentAvgRating (s : Store) : List ((ℤ × ℤ) × ℚ) :=
  sqlGroup
    (leftJoin s.links (apartmentReviewsFullData s)
      (fun a b => decide (a.apartment = b.2.apartment)))
    (fun row => (row.1.apartment, row.1.owner))
    (fun rows => avgOptCoalesce
      (rows.map (fun row => row.2.map (fun b => (b.2.rating : ℚ)))))

/-- View `OwnerAvgRating`
(`SELECT A.owner_id, COALESCE(AVG(AR.avg_rating), 0) AS avg_rating
FROM Owner A LEFT JOIN ApartmentAvgRating AR ON A.owner_id = AR.owner_id
GROUP BY A.owner_id`). -/
def ownerAvgRating (s : Store) : List (ℤ × ℚ) :=
  sqlGroup
    (leftJoin s.owners (apartmentAvgRating s) (fun o ar => decide (o.id = ar.1.2)))
    (fun row => row.1.id)
    (fun rows => avgOptCoalesce (rows.map (fun row => row.2.map Prod.snd)))

/-- A row of view `ApartmentPriceRatingAVG`: `B.apartment_id`, the apartment
columns from `B`, `total_price / (end_date - start_date) AS price_per_night`,
and `COALESCE(rating, 0) AS rating`. -/
structure APRRow where
  apartment : ℤ
  apt : ApartmentRow
  pricePerNight : ℚ
  rating : ℚ
deriving DecidableEq, Repr

/-- View `ApartmentPriceRatingAVG`
(`FROM CustomerReservations C FULL OUTER JOIN ApartmentReviewsFullData A
ON (C.apartment_id = A.apartment_id)
JOIN Apartment B ON (C.apartment_id = B.apartment_id)`); the inner join on
`C.apartment_id` drops every row whose reservation side is `NULL`. -/
def apartmentPriceRatingAVG (s : Store) : List APRRow :=
  (fullJoin s.reservations (apartmentReviewsFullData s)
      (fun c a => decide (c.apartment = a.2.apartment))).flatMap
    (fun row => match row.1 with
      | none => []
      | some c =>
        (s.apartments.filter (fun b => decide (c.apartment = b.id))).map
          (fun b =>
            ⟨b.id, b, c.totalPrice / ((dateDiff c.endDate c.startDate : ℤ) : ℚ),
              match row.2 with
              | none => 0
              | some a => (a.2.rating : ℚ)⟩))

/-- A row of view `CustomerReviewsProd`
(`SELECT A.customer_id, B.customer_id, A.apartment_id, A.rating, B.rating
FROM CustomerReviews A, CustomerReviews B
WHERE A.customer_id != B.customer_id AND A.apartment_id = B.apartment_id`). -/
structure ProdRow where
  custA : ℤ
  custB : ℤ
  apartment : ℤ
  ratingA : ℤ
  ratingB : ℤ
deriving DecidableEq, Repr

/-- View `CustomerReviewsProd`. -/
def customerReviewsProd (s : Store) : List ProdRow :=
  s.reviews.flatMap (fun a =>
    (s.reviews.filter (fun b =>
        decide (a.customer ≠ b.customer ∧ a.apartment = b.apartment))).map
      (fun b => ⟨a.customer, b.customer, a.apartment, a.rating, b.rating⟩))

/-- View `CustomerRatingsAvgRatio`
(`SELECT customer_a_id, customer_b_id,
AVG(customer_a_rating*1.0/customer_b_rating) AS avg_ratio
FROM CustomerReviewsProd A GROUP BY customer_a_id, customer_b_id`). -/
def customerRatingsAvgRatio (s : Store) : List ((ℤ × ℤ) × ℚ) :=
  sqlGroup (customerReviewsProd s) (fun r => (r.custA, r.custB))
    (fun rows => avgQ (rows.map (fun r => (r.ratingA : ℚ) / (r.ratingB : ℚ))))

/-- View `UnreviewedApartments`
(`SELECT C.customer_id, A.apartment_id FROM CustomerReviews C, Apartment A
WHERE NOT EXISTS (SELECT 1 FROM CustomerReviews D
WHERE D.customer_id = C.customer_id AND A.apartment_id = D.apartment_id)
GROUP BY customer_id, unreviewed_apartment_id` — grouping with no aggregate,
i.e. distinct pairs). -/
def unreviewedApartments (s : Store) : List (ℤ × ℤ) :=
  (s.reviews.flatMap (fun c =>
    (s.apartments.filter (fun a =>
        !s.reviews.any (fun d =>
          decide (d.customer = c.customer ∧ a.id = d.apartment)))).map
      (fun a => (c.customer, a.id)))).dedup

/-- A row of view `CustomersUnreviewedApartmentsAvgRatio`
(`SELECT customer_a_id, customer_b_id, avg_ratio, unreviewed_apartment_id
FROM CustomerRatingsAvgRatio C JOIN UnreviewedApartments U
ON (C.customer_a_id = U.customer_id)`). -/
structure CUARRow where
  custA : ℤ
  custB : ℤ
  avgRatio : ℚ
  unreviewed : ℤ
deriving DecidableEq, Repr

/-- View `CustomersUnreviewedApartmentsAvgRatio`. -/
def customersUnreviewedApartmentsAvgRatio (s : Store) : List CUARRow :=
  (customerRatingsAvgRatio s).flatMap (fun c =>
    ((unreviewedApartments s).filter (fun u => decide (c.1.1 = u.1))).map
      (fun u => ⟨c.1.1, c.1.2, c.2, u.2⟩))

/-- `GREATEST(LEAST(x, 10), 1)`. -/
def clamp110 (x : ℚ) : ℚ := max (min x 10) 1

/-- View `CustomersUnreviewedApartmentsFilter`
(`SELECT customer_a_id AS customer_id, unreviewed_apartment_id,
AVG(GREATEST(LEAST(rating*avg_ratio, 10), 1)) AS expected_rating
FROM CustomersUnreviewedApartmentsAvgRatio C JOIN CustomerReviews A
ON (C.customer_b_id = A.customer_id AND C.unreviewed_apartment_id = A.apartment_id)
GROUP BY customer_a_id, unreviewed_apartment_id`);
keyed by `(customer_id, unreviewed_apartment_id)`. -/
def customersUnreviewedApartmentsFilter (s : Store) : List ((ℤ × ℤ) × ℚ) :=
  sqlGroup
    ((customersUnreviewedApartmentsAvgRatio s).flatMap (fun c =>
      (s.reviews.filter (fun a =>
          decide (c.custB = a.customer ∧ c.unreviewed = a.apartment))).map
        (fun a => (c, a))))
    (fun row => (row.1.custA, row.1.unreviewed))
    (fun rows => avgQ
      (rows.map (fun row => clamp110 ((row.2.rating : ℚ) * row.1.avgRatio))))

/-- View `CustomerUnreviewedApartmentsFullData`
(`SELECT * FROM CustomersUnreviewedApartmentsFilter C JOIN Apartment A
ON (C.unreviewed_apartment_id = A.apartment_id)`). -/
def customerUnreviewedApartmentsFullData (s : Store) :
    List (((ℤ × ℤ) × ℚ) × ApartmentRow) :=
  (customersUnreviewedApartmentsFilter s).flatMap (fun c =>
    (s.apartments.filter (fun a => decide (c.1.2 = a.id))).map (fun a => (c, a)))

/-- The overlap test hard-coded in `customer_made_reservation`'s
`WHERE NOT EXISTS` subquery, for a requested interval `[s1, e1)` against an
existing reservation `[s2, e2)`:
`(s1 >= s2 AND e1 <= e2) OR (e1 > s2 AND e1 <= e2 AND s1 <= s2) OR
(s1 >= s2 AND s1 < e2 AND e1 >= e2)`. -/
def codeOverlap (s1 e1 s2 e2 : Date) : Prop :=
  (s2 ≤ s1 ∧ e1 ≤ e2) ∨ (s2 < e1 ∧ e1 ≤ e2 ∧ s1 ≤ s2) ∨
    (s2 ≤ s1 ∧ s1 < e2 ∧ e2 ≤ e1)

instance (s1 e1 s2 e2 : Date) : Decidable (codeOverlap s1 e1 s2 e2) := by
  unfold codeOverlap; infer_instance

/-- The half-open interval overlap test of the specification:
`[s1, e1)` and `[s2, e2)` overlap iff `s1 < e2` and `s2 < e1`. -/
def specOverlap (s1 e1 s2 e2 : Date) : Prop := s1 < e2 ∧ s2 < e1

instance (s1 e1 s2 e2 : Date) : Decidable (specOverlap s1 e1 s2 e2) := by
  unfold specOverlap; infer_instance

/-- `customer_made_reservation` (`Solution.py` lines 476-515): conditional
`INSERT ... WHERE NOT EXISTS(overlap)`; zero affected rows return
`BAD_PARAMS`; `CHECK` violations map to `BAD_PARAMS`; a `UNIQUE` violation on
`(apartment_id, start_date)` has no handler and falls to `ERROR`;
foreign-key violations map to `NOT_EXISTS`. -/
def customer_made_reservation (s : Store) (c a : ℤ) (sd ed : Date) (p : ℚ) :
    ReturnValue × Store :=
  if s.reservations.any (fun r =>
      decide (r.apartment = a ∧ codeOverlap sd ed r.startDate r.endDate)) then
    (ReturnValue.BAD_PARAMS, s)
  else if p ≤ 0 ∨ ¬ sd < ed ∨ c ≤ 0 ∨ a ≤ 0 then (ReturnValue.BAD_PARAMS, s)
  else if s.reservations.any (fun r =>
      decide (r.apartment = a ∧ r.startDate = sd)) then
    (ReturnValue.ERROR, s)
  else if ¬ (c ∈ s.customers.map CustomerRow.id ∧
      a ∈ s.apartments.map ApartmentRow.id) then
    (ReturnValue.NOT_EXISTS, s)
  else
    (ReturnValue.OK, { s with reservations := s.reservations ++ [⟨c, a, sd, ed, p⟩] })

/-- `customer_cancelled_reservation` (`Solution.py` lines 518-547): an early
Python guard rejects non-positive ids with `BAD_PARAMS`; then
`DELETE FROM CustomerReservations WHERE customer_id = .. AND apartment_id = ..
AND start_date = ..`, with zero affected rows returning `NOT_EXISTS`. -/
def customer_cancelled_reservation (s : Store) (c a : ℤ) (sd : Date) :
    ReturnValue × Store :=
  if c ≤ 0 ∨ a ≤ 0 then (ReturnValue.BAD_PARAMS, s)
  else if ¬ s.reservations.any (fun r =>
      decide (r.customer = c ∧ r.apartment = a ∧ r.startDate = sd)) then
    (ReturnValue.NOT_EXISTS, s)
  else
    (ReturnValue.OK, { s with reservations := s.reservations.filter (fun r =>
        !decide (r.customer = c ∧ r.apartment = a ∧ r.startDate = sd)) })

/-- `customer_reviewed_apartment` (`Solution.py` lines 550-589): conditional
`INSERT ... WHERE EXISTS` (a reservation of the same customer on the apartment
with `review_date >= end_date`); zero affected rows return `BAD_PARAMS` when
an id is non-positive or the rating is outside 1..10, else `NOT_EXISTS`;
otherwise the row insert runs its `CHECK` constraints (`BAD_PARAMS`), then the
`UNIQUE(customer_id, apartment_id)` index (`ALREADY_EXISTS`), then foreign
keys (`NOT_EXISTS`). -/
def customer_reviewed_apartment (s : Store) (c a : ℤ) (d : Date) (r : ℤ)
    (t : String) : ReturnValue × Store :=
  if ¬ s.reservations.any (fun res =>
      decide (res.apartment = a ∧ res.endDate ≤ d ∧ c = res.customer)) then
    (if c ≤ 0 ∨ a ≤ 0 ∨ r < 1 ∨ 10 < r then (ReturnValue.BAD_PARAMS, s)
     else (ReturnValue.NOT_EXISTS, s))
  else if r < 1 ∨ 10 < r ∨ c ≤ 0 ∨ a ≤ 0 then (ReturnValue.BAD_PARAMS, s)
  else if s.reviews.any (fun v => decide (v.customer = c ∧ v.apartment = a)) then
    (ReturnValue.ALREADY_EXISTS, s)
  else if ¬ (c ∈ s.customers.map CustomerRow.id ∧
      a ∈ s.apartments.map ApartmentRow.id) then
    (ReturnValue.NOT_EXISTS, s)
  else
    (ReturnValue.OK, { s with reviews := s.reviews ++ [⟨c, a, d, r, t⟩] })

/-- The row transformer of `customer_updated_review`'s `UPDATE`: rows matching
`customer_id = c AND apartment_id = a AND review_date <= d` get
`review_date = d, rating = r, review_text = t`. -/
def updateReviewRow (c a : ℤ) (d : Date) (r : ℤ) (t : String) (v : Review) :
    Review :=
  if v.customer = c ∧ v.apartment = a ∧ v.reviewDate ≤ d then
    { v with reviewDate := d, rating := r, text := t }
  else v

/-- `customer_updated_review` (`Solution.py` lines 591-621):
`UPDATE CustomerReviews SET review_date, rating, review_text WHERE
customer_id = .. AND apartment_id = .. AND review_date <= update_date`; zero
affected rows return `BAD_PARAMS` when an id is non-positive or the rating is
outside 1..10, else `NOT_EXISTS`; an updated row re-runs the rating `CHECK`
(`BAD_PARAMS` on violation). -/
def customer_updated_review (s : Store) (c a : ℤ) (d : Date) (r : ℤ)
    (t : String) : ReturnValue × Store :=
  if ¬ s.reviews.any (fun v =>
      decide (v.customer = c ∧ v.apartment = a ∧ v.reviewDate ≤ d)) then
    (if c ≤ 0 ∨ a ≤ 0 ∨ r < 1 ∨ 10 < r then (ReturnValue.BAD_PARAMS, s)
     else (ReturnValue.NOT_EXISTS, s))
  else if r < 1 ∨ 10 < r then (ReturnValue.BAD_PARAMS, s)
  else
    (ReturnValue.OK, { s with reviews := s.reviews.map (updateReviewRow c a d r t) })

/-- `get_apartment_rating` (`Solution.py` lines 725-744):
`SELECT avg_rating FROM ApartmentAvgRating WHERE apartment_id = ..`; an empty
result yields `0.0`, otherwise the first row's `avg_rating`. -/
def get_apartment_rating (s : Store) (aid : ℤ) : ℚ :=
  match (apartmentAvgRating s).filter (fun row => decide (row.1.1 = aid)) with
  | [] => 0
  | row :: _ => row.2

/-- `get_owner_rating` (`Solution.py` lines 747-766):
`SELECT avg_rating FROM OwnerAvgRating WHERE owner_id = ..`; an empty result
yields `0.0`, otherwise the first row's `avg_rating`. -/
def get_owner_rating (s : Store) (oid : ℤ) : ℚ :=
  match (ownerAvgRating s).filter (fun row => decide (row.1 = oid)) with
  | [] => 0
  | row :: _ => row.2

/-- The comparator of `ORDER BY value_for_money DESC`. -/
def byValueDesc : (ℤ × ℚ) → (ℤ × ℚ) → Prop := fun x y => y.2 ≤ x.2

instance : DecidableRel byValueDesc :=
  fun x y => decidable_of_iff (y.2 ≤ x.2) Iff.rfl

instance : IsTotal (ℤ × ℚ) byValueDesc := ⟨fun a b => le_total b.2 a.2⟩

instance : IsTrans (ℤ × ℚ) byValueDesc := ⟨fun _ _ _ h1 h2 => le_trans h2 h1⟩

/-- The comparator of `ORDER BY month` and of Python's
`sorted(result, key=lambda x: x[0])`. -/
def byMonthLE : (ℤ × ℚ) → (ℤ × ℚ) → Prop := fun x y => x.1 ≤ y.1

/-- Strict version of `byMonthLE`, used to pin down sorted outputs. -/
def byMonthLT : (ℤ × ℚ) → (ℤ × ℚ) → Prop := fun x y => x.1 < y.1

instance : DecidableRel byMonthLE :=
  fun x y => decidable_of_iff (x.1 ≤ y.1) Iff.rfl

instance : IsTotal (ℤ × ℚ) byMonthLE := ⟨fun a b => le_total a.1 b.1⟩

instance : IsTrans (ℤ × ℚ) byMonthLE := ⟨fun _ _ _ h1 h2 => le_trans h1 h2⟩

instance : IsAntisymm (ℤ × ℚ) byMonthLT :=
  ⟨fun _ _ h1 h2 => absurd h2 (lt_asymm h1)⟩

/-- `best_value_for_money` (`Solution.py` lines 836-866): group
`ApartmentPriceRatingAVG` by `apartment_id` with
`AVG(rating) / AVG(price_per_night) AS value_for_money`, order by that value
descending and keep the first row (`LIMIT 1`); an empty result is
`Apartment.bad_apartment()`, embedded as `none`. The `MAX(address)` etc.
aggregates only copy the per-group-constant apartment columns, so the result
is reported by its `apartment_id` group key. -/
def best_value_for_money (s : Store) : Option ℤ :=
  let groups := sqlGroup (apartmentPriceRatingAVG s) (fun r => r.apartment)
    (fun rows => avgQ (rows.map APRRow.rating) / avgQ (rows.map APRRow.pricePerNight))
  (groups.insertionSort byValueDesc).head?.map Prod.fst

/-- The Python list `[i for i in range(1, 13)]`. -/
def monthsList : List ℤ := (List.range 12).map (fun n : ℕ => (n : ℤ) + 1)

/-- The SQL of `profit_per_month`:
`SELECT EXTRACT(MONTH FROM end_date) AS month, SUM(total_price * 0.15) AS
profit FROM CustomerReservations WHERE EXTRACT(YEAR FROM end_date) = year
GROUP BY month ORDER BY month`. -/
def profitRows (s : Store) (year : ℤ) : List (ℤ × ℚ) :=
  (sqlGroup (s.reservations.filter (fun r => decide (r.endDate.y = year)))
      (fun r => r.endDate.m)
      (fun grp => (grp.map (fun r => r.totalPrice * (15 / 100 : ℚ))).sum)).insertionSort
    byMonthLE

/-- `profit_per_month` (`Solution.py` lines 869-897): run `profitRows`; an
empty result returns the twelve pairs `(m, 0.0)`; otherwise append a zero pair
for every month of `1..12` not present in the result (Python's
`missing_months.remove`) and sort by month. -/
def profit_per_month (s : Store) (year : ℤ) : List (ℤ × ℚ) :=
  let rows := profitRows s year
  if rows.isEmpty then monthsList.map (fun m => (m, (0 : ℚ)))
  else
    let missing := rows.foldl (fun acc r => acc.erase r.1) monthsList
    (rows ++ missing.map (fun m => (m, (0 : ℚ)))).insertionSort
      byMonthLE

/-- `get_apartment_recommendation` (`Solution.py` lines 900-921):
`SELECT * FROM CustomerUnreviewedApartmentsFullData WHERE customer_id = ..`,
each row yielding `(Apartment(unreviewed_apartment_id, address, city, country,
size), float(expected_rating))`. -/
def get_apartment_recommendation (s : Store) (cid : ℤ) :
    List (ApartmentRow × ℚ) :=
  ((customerUnreviewedApartmentsFullData s).filter (fun row =>
      decide (row.1.1.1 = cid))).map
    (fun row =>
      (⟨row.1.1.2, row.2.address, row.2.city, row.2.country, row.2.size⟩,
        row.1.2))

/-! ### Specification-side definitions (for refinement statements) -/

/-- Arithmetic mean with the spec's default `0.0` for an empty collection. -/
def meanOrZero (l : List ℚ) : ℚ := if l = [] then 0 else l.sum / l.length

/-- The ratings of all reviews on an apartment. -/
def ratingsOn (s : Store) (x : ℤ) : List ℚ :=
  (s.reviews.filter (fun v => decide (v.apartment = x))).map (fun v => (v.rating : ℚ))

/-- The spec's `apartment_rating`: mean rating of the apartment's reviews,
`0.0` when it has none. -/
def apartmentRatingSpec (s : Store) (x : ℤ) : ℚ := meanOrZero (ratingsOn s x)

/-- The apartments currently linked to an owner. -/
def ownedApartments (s : Store) (oid : ℤ) : List ℤ :=
  (s.links.filter (fun l => decide (l.owner = oid))).map OwnLink.apartment

/-- The spec's `owner_rating`: mean over the owner's apartments of each
apartment's rating (mean of means), `0.0` for an owner with no apartments. -/
def ownerRatingSpec (s : Store) (oid : ℤ) : ℚ :=
  meanOrZero ((ownedApartments s oid).map (apartmentRatingSpec s))

/-- The spec's price per night of a reservation:
`total_price / (end_date - start_date)`. -/
def pricePerNight (r : Reservation) : ℚ :=
  r.totalPrice / ((dateDiff r.endDate r.startDate : ℤ) : ℚ)

/-- The reservations on an apartment. -/
def resOn (s : Store) (x : ℤ) : List Reservation :=
  s.reservations.filter (fun r => decide (r.apartment = x))

/-- The reviews on an apartment. -/
def revOn (s : Store) (x : ℤ) : List Review :=
  s.reviews.filter (fun v => decide (v.apartment = x))

/-- The value-for-money score the code assigns to an apartment:
mean rating (`0` when it has no reviews) divided by mean price per night of
its reservations. -/
def valueScore (s : Store) (x : ℤ) : ℚ :=
  (if revOn s x = [] then 0
   else avgQ ((revOn s x).map (fun v => (v.rating : ℚ)))) /
    avgQ ((resOn s x).map pricePerNight)

/-- The spec's monthly profit: 15% of the summed `total_price` of the
reservations whose `end_date` falls in month `m` of year `Y`. -/
def specProfit (s : Store) (Y m : ℤ) : ℚ :=
  (15 / 100 : ℚ) *
    (((s.reservations.filter (fun r => decide (r.endDate.y = Y))).filter
        (fun r => decide (r.endDate.m = m))).map Reservation.totalPrice).sum

/-! ### General list lemmas -/

theorem filter_key_eq_singleton {α κ : Type} [DecidableEq κ] {l : List α}
    {f : α → κ} (hnd : (l.map f).Nodup) {x : α} (hx : x ∈ l) {k : κ}
    (hk : f x = k) : l.filter (fun y => decide (f y = k)) = [x] := by
  induction l with
  | nil => cases hx
  | cons a tl ih =>
    rw [List.map_cons, List.nodup_cons] at hnd
    rcases List.mem_cons.mp hx with rfl | hx' 
    · rw [List.filter_cons_of_pos (by simp [hk])]
      have h0 : tl.filter (fun y => decide (f y = k)) = [] := by
        rw [List.filter_eq_nil_iff]
        intro y hy hfy
        rw [decide_eq_true_eq] at hfy
        exact hnd.1 (hk ▸ hfy ▸ List.mem_map_of_mem f hy)
      rw [h0]
    · have hne : ¬ (f a = k) := fun h => by
        exact hnd.1 (h.trans hk.symm ▸ List.mem_map_of_mem f hx')
      rw [List.filter_cons_of_neg (by simp [hne])]
      exact ih hnd.2 hx'

theorem filter_key_eq_singleton' {α κ : Type} [DecidableEq κ] {l : List α}
    {f : α → κ} (hnd : (l.map f).Nodup) {x : α} (hx : x ∈ l) {k : κ}
    (hk : f x = k) : l.filter (fun y => decide (k = f y)) = [x] := by
  rw [← filter_key_eq_singleton hnd hx hk]
  apply List.filter_congr
  intro y _
  simp [eq_comm]

theorem flatMap_eq_map {ι ρ : Type} {l : List ι} {f : ι → List ρ} {g : ι → ρ}
    (h : ∀ i ∈ l, f i = [g i]) : l.flatMap f = l.map g := by
  induction l with
  | nil => rfl
  | cons a tl ih =>
    rw [List.flatMap_cons, List.map_cons, h a (by simp),
      ih (fun i hi => h i (by simp [hi]))]
    rfl

theorem filter_flatMap_eq {ι ρ : Type} (l : List ι) (f : ι → List ρ)
    (p : ρ → Bool) :
    (l.flatMap f).filter p = l.flatMap (fun i => (f i).filter p) := by
  induction l with
  | nil => rfl
  | cons a tl ih => rw [List.flatMap_cons, List.flatMap_cons, List.filter_append, ih]

theorem flatMap_filter_blocks {ι ρ : Type} {l : List ι} {f : ι → List ρ}
    {p : ρ → Bool} {q : ι → Bool}
    (h : ∀ i ∈ l, (f i).filter p = if q i then f i else []) :
    (l.flatMap f).filter p = (l.filter q).flatMap f := by
  rw [filter_flatMap_eq]
  induction l with
  | nil => rfl
  | cons a tl ih =>
    rw [List.flatMap_cons, h a (by simp)]
    by_cases hq : q a = true
    · rw [if_pos hq, List.filter_cons_of_pos hq, List.flatMap_cons,
        ih (fun i hi => h i (by simp [hi]))]
    · rw [if_neg hq, List.filter_cons_of_neg hq, List.nil_append,
        ih (fun i hi => h i (by simp [hi]))]

theorem sum_flatMap_q {ι : Type} (l : List ι) (f : ι → List ℚ) :
    (l.flatMap f).sum = (l.map (fun i => (f i).sum)).sum := by
  induction l with
  | nil => rfl
  | cons a tl ih => rw [List.flatMap_cons, List.map_cons, List.sum_append,
      List.sum_cons, ih]

theorem length_flatMap_q {ι ρ : Type} (l : List ι) (f : ι → List ρ) :
    ((l.flatMap f).length : ℚ) = (l.map (fun i => ((f i).length : ℚ))).sum := by
  induction l with
  | nil => rfl
  | cons a tl ih => rw [List.flatMap_cons, List.map_cons, List.length_append,
      List.sum_cons, Nat.cast_add, ih]

theorem avgQ_bounds {l : List ℚ} {lo hi : ℚ} (hne : l ≠ [])
    (h : ∀ x ∈ l, lo ≤ x ∧ x ≤ hi) : lo ≤ avgQ l ∧ avgQ l ≤ hi := by
  have hlen : (0 : ℚ) < l.length := by
    have := List.length_pos.mpr hne
    exact_mod_cast this
  have h1 : l.length • lo ≤ l.sum :=
    List.card_nsmul_le_sum l lo (fun x hx => (h x hx).1)
  have h2 : l.sum ≤ l.length • hi :=
    List.sum_le_card_nsmul l hi (fun x hx => (h x hx).2)
  rw [nsmul_eq_mul] at h1 h2
  constructor
  · rw [avgQ, le_div_iff₀ hlen, mul_comm]
    exact h1
  · rw [avgQ, div_le_iff₀ hlen, mul_comm]
    exact h2

theorem dedup_append_of_all_eq {κ : Type} [DecidableEq κ] {xs ys : List κ}
    {k : κ} (hne : xs ≠ []) (hall : ∀ x ∈ xs, x = k) (hk : k ∉ ys) :
    (xs ++ ys).dedup = k :: ys.dedup := by
  induction xs with
  | nil => exact absurd rfl hne
  | cons a tl ih =>
    have ha : a = k := hall a (by simp)
    subst ha
    cases tl with
    | nil =>
      rw [List.singleton_append, List.dedup_cons_of_not_mem hk]
    | cons b tl' =>
      have hb : b = a := (hall b (by simp)).trans rfl
      rw [List.cons_append, List.dedup_cons_of_mem]
      · exact ih (by simp) (fun x hx => hall x (by simp [hx]))
      · rw [List.cons_append]
        exact List.mem_cons.mpr (Or.inl hb.symm)

theorem sqlGroup_flatMap_blocks {ι ρ κ α : Type} [DecidableEq κ]
    (items : List ι) (blk : ι → List ρ) (key : ρ → κ) (ikey : ι → κ)
    (agg : List ρ → α)
    (hne : ∀ i ∈ items, blk i ≠ [])
    (hconst : ∀ i ∈ items, ∀ r ∈ blk i, key r = ikey i)
    (hnd : (items.map ikey).Nodup) :
    sqlGroup (items.flatMap blk) key agg
      = items.map (fun i => (ikey i, agg (blk i))) := by
  induction items with
  | nil => rfl
  | cons i rest ih =>
    rw [List.map_cons, List.nodup_cons] at hnd
    have hkeyi : ∀ r ∈ blk i, key r = ikey i := hconst i (by simp)
    have hrest : ikey i ∉ (rest.flatMap blk).map key := by
      intro hmem
      rcases List.mem_map.mp hmem with ⟨r, hr, hkr⟩
      rcases List.mem_flatMap.mp hr with ⟨j, hj, hrj⟩
      exact hnd.1 (by
        rw [← hkr, hconst j (by simp [hj]) r hrj]
        exact List.mem_map_of_mem ikey hj)
    have hded : ((i :: rest).flatMap blk).map key
        = (blk i).map key ++ (rest.flatMap blk).map key := by
      rw [List.flatMap_cons, List.map_append]
    have hdedup : (((i :: rest).flatMap blk).map key).dedup
        = ikey i :: ((rest.flatMap blk).map key).dedup := by
      rw [hded]
      exact dedup_append_of_all_eq
        (by simpa using hne i (by simp))
        (by intro x hx
            rcases List.mem_map.mp hx with ⟨r, hr, hkr⟩
            exact hkr ▸ hkeyi r hr)
        hrest
    unfold sqlGroup
    rw [hdedup, List.map_cons]
    congr 1
    · congr 1
      rw [List.flatMap_cons, List.filter_append,
        List.filter_eq_self.mpr (fun r hr => by simp [hkeyi r hr]),
        List.filter_eq_nil_iff.mpr (fun r hr => by
          simp only [decide_eq_true_eq]
          intro hk
          exact hrest (hk ▸ List.mem_map_of_mem key hr)),
        List.append_nil]
    · have := ih (fun j hj => hne j (by simp [hj]))
        (fun j hj => hconst j (by simp [hj])) hnd.2
      unfold sqlGroup at this
      rw [← this]
      apply List.map_congr_left
      intro k hk
      congr 1
      rw [List.flatMap_cons, List.filter_append,
        List.filter_eq_nil_iff.mpr (fun r hr => by
          simp only [decide_eq_true_eq]
          intro hkr
          exact hrest (by
            rw [← hkr, hkeyi r hr] at hk
            exact absurd (List.mem_dedup.mp hk) (by rw [hkeyi r hr] at hkr; exact fun hh => hrest (hkr ▸ hh)))),
        List.nil_append]

theorem filter_decide_comm {α κ : Type} [DecidableEq κ] (l : List α)
    (f : α → κ) (k : κ) :
    l.filter (fun y => decide (k = f y)) = l.filter (fun y => decide (f y = k)) :=
  List.filter_congr (fun y _ => by simp [eq_comm])

/-! ### Structural characterization of the views under `WF` -/

/-- The unique `Owner` row with a given id (well-defined under `WF`). -/
def ownerRowOf (s : Store) (oid : ℤ) : OwnerRow :=
  (s.owners.filter (fun o => decide (oid = o.id))).headI

/-- The unique `Apartment` row with a given id (well-defined under `WF`). -/
def aptRowOf (s : Store) (aid : ℤ) : ApartmentRow :=
  (s.apartments.filter (fun b => decide (aid = b.id))).headI

theorem owners_filter_eq {s : Store} (hwf : WF s) {oid : ℤ}
    (h : oid ∈ s.owners.map OwnerRow.id) :
    s.owners.filter (fun o => decide (oid = o.id)) = [ownerRowOf s oid] ∧
      (ownerRowOf s oid).id = oid := by
  rcases List.mem_map.mp h with ⟨o, ho, hid⟩
  have hf : s.owners.filter (fun o' => decide (oid = o'.id)) = [o] :=
    filter_key_eq_singleton' hwf.ownersNodup ho hid
  have : ownerRowOf s oid = o := by rw [ownerRowOf, hf]; rfl
  rw [this, hf]
  exact ⟨rfl, hid⟩

theorem apartments_filter_eq {s : Store} (hwf : WF s) {aid : ℤ}
    (h : aid ∈ s.apartments.map ApartmentRow.id) :
    s.apartments.filter (fun b => decide (aid = b.id)) = [aptRowOf s aid] ∧
      (aptRowOf s aid).id = aid := by
  rcases List.mem_map.mp h with ⟨b, hb, hid⟩
  have hf : s.apartments.filter (fun b' => decide (aid = b'.id)) = [b] :=
    filter_key_eq_singleton' hwf.apartmentsNodup hb hid
  have : aptRowOf s aid = b := by rw [aptRowOf, hf]; rfl
  rw [this, hf]
  exact ⟨rfl, hid⟩

theorem aofd_eq (s : Store) (hwf : WF s) :
    apartmentOwnersFullData s = s.links.map (fun l =>
      ⟨l.owner, (ownerRowOf s l.owner).name, aptRowOf s l.apartment⟩) := by
  unfold apartmentOwnersFullData
  apply flatMap_eq_map
  intro l hl
  rw [(owners_filter_eq hwf (hwf.linksFKo l hl)).1,
    (apartments_filter_eq hwf (hwf.linksFKa l hl)).1]
  rfl

theorem aofd_apt_ids (s : Store) (hwf : WF s) :
    (apartmentOwnersFullData s).map (fun a => a.apt.id)
      = s.links.map OwnLink.apartment := by
  rw [aofd_eq s hwf, List.map_map]
  apply List.map_congr_left
  intro l hl
  exact (apartments_filter_eq hwf (hwf.linksFKa l hl)).2

/-- The owner-side columns `ApartmentReviewsFullData` pairs with a review
(`NULL` when the review's apartment is unowned). -/
def ownSide (s : Store) (v : Review) : Option AOFDRow :=
  ((apartmentOwnersFullData s).filter
    (fun a => decide (a.apt.id = v.apartment))).head?

theorem arfd_eq (s : Store) (hwf : WF s) :
    apartmentReviewsFullData s = s.reviews.map (fun v => (ownSide s v, v)) := by
  have hnd : ((apartmentOwnersFullData s).map (fun a => a.apt.id)).Nodup := by
    rw [aofd_apt_ids s hwf]
    exact hwf.linksNodup
  unfold apartmentReviewsFullData rightJoin
  apply flatMap_eq_map
  intro v hv
  by_cases hex : ∃ a ∈ apartmentOwnersFullData s, a.apt.id = v.apartment
  · rcases hex with ⟨a, ha, hid⟩
    have hf : (apartmentOwnersFullData s).filter
        (fun a' => decide (a'.apt.id = v.apartment)) = [a] :=
      filter_key_eq_singleton hnd ha hid
    have hos : ownSide s v = some a := by rw [ownSide, hf]; rfl
    simp only [hf, hos]
    rfl
  · push_neg at hex
    have hf : (apartmentOwnersFullData s).filter
        (fun a' => decide (a'.apt.id = v.apartment)) = [] := by
      rw [List.filter_eq_nil_iff]
      intro a ha hda
      rw [decide_eq_true_eq] at hda
      exact hex a ha hda
    have hos : ownSide s v = none := by rw [ownSide, hf]; rfl
    simp only [hf, hos]
    rfl

theorem arfd_filter (s : Store) (hwf : WF s) (x : ℤ) :
    (apartmentReviewsFullData s).filter (fun b => decide (x = b.2.apartment))
      = (revOn s x).map (fun v => (ownSide s v, v)) := by
  rw [arfd_eq s hwf, List.filter_map]
  rw [revOn, ← filter_decide_comm s.reviews Review.apartment x]
  rfl

theorem meanOrZero_of_ne_nil {l : List ℚ} (h : l ≠ []) :
    meanOrZero l = avgQ l := by
  rw [meanOrZero, if_neg h, avgQ]

theorem ratingsOn_eq (s : Store) (x : ℤ) :
    ratingsOn s x = (revOn s x).map (fun v => (v.rating : ℚ)) := rfl

theorem avgOptCoalesce_all_some {α : Type} (l : List α) (f : α → ℚ)
    (h : l ≠ []) : avgOptCoalesce (l.map (fun x => some (f x))) = avgQ (l.map f) := by
  rw [avgOptCoalesce]
  simp only [List.filterMap_map]
  rw [show (id ∘ fun x => some (f x)) = some ∘ f from rfl, List.filterMap_eq_map]
  rw [if_neg (by simp [h])]

theorem apartmentAvgRating_eq (s : Store) (hwf : WF s) :
    apartmentAvgRating s = s.links.map (fun l =>
      ((l.apartment, l.owner), apartmentRatingSpec s l.apartment)) := by
  have hnd : (s.links.map (fun l => (l.apartment, l.owner))).Nodup := by
    apply List.Nodup.of_map Prod.fst
    rw [List.map_map]
    exact hwf.linksNodup
  have hblocks := sqlGroup_flatMap_blocks s.links
    (fun l =>
      let ms := (apartmentReviewsFullData s).filter
        (fun b => decide (l.apartment = b.2.apartment))
      if ms.isEmpty then [(l, none)] else ms.map (fun r => (l, some r)))
    (fun row => (row.1.apartment, row.1.owner))
    (fun l => (l.apartment, l.owner))
    (fun rows => avgOptCoalesce
      (rows.map (fun row => row.2.map (fun b => (b.2.rating : ℚ)))))
    (by
      intro l hl
      simp only []
      by_cases h : ((apartmentReviewsFullData s).filter
          (fun b => decide (l.apartment = b.2.apartment))).isEmpty
      · simp [h]
      · simp only [if_neg h]
        rw [Ne, List.map_eq_nil_iff]
        rw [List.isEmpty_iff] at h
        exact h)
    (by
      intro l hl row hrow
      simp only [] at hrow
      by_cases h : ((apartmentReviewsFullData s).filter
          (fun b => decide (l.apartment = b.2.apartment))).isEmpty
      · rw [if_pos h] at hrow
        rcases List.mem_singleton.mp hrow with rfl
        rfl
      · rw [if_neg h] at hrow
        rcases List.mem_map.mp hrow with ⟨r, _, rfl⟩
        rfl)
    hnd
  rw [show apartmentAvgRating s = sqlGroup (s.links.flatMap (fun l =>
      let ms := (apartmentReviewsFullData s).filter
        (fun b => decide (l.apartment = b.2.apartment))
      if ms.isEmpty then [(l, none)] else ms.map (fun r => (l, some r))))
    (fun row => (row.1.apartment, row.1.owner))
    (fun rows => avgOptCoalesce
      (rows.map (fun row => row.2.map (fun b => (b.2.rating : ℚ)))))
    from rfl]
  rw [hblocks]
  apply List.map_congr_left
  intro l hl
  simp only []
  congr 1
  rw [arfd_filter s hwf l.apartment]
  by_cases hrev : revOn s l.apartment = []
  · rw [hrev]
    simp only [List.map_nil, List.isEmpty_nil, if_pos]
    rw [apartmentRatingSpec, ratingsOn_eq, hrev]
    rfl
  · rw [if_neg (by simp [List.isEmpty_iff, hrev])]
    rw [List.map_map, List.map_map]
    rw [apartmentRatingSpec, ratingsOn_eq,
      meanOrZero_of_ne_nil (by simp [hrev])]
    show avgOptCoalesce
      ((revOn s l.apartment).map (fun v => some ((v.rating : ℚ)))) = _
    rw [avgOptCoalesce_all_some _ _ hrev]

theorem ownerAvgRating_eq (s : Store) (hwf : WF s) :
    ownerAvgRating s = s.owners.map (fun o => (o.id, ownerRatingSpec s o.id)) := by
  have hblocks := sqlGroup_flatMap_blocks s.owners
    (fun o =>
      let ms := (apartmentAvgRating s).filter (fun ar => decide (o.id = ar.1.2))
      if ms.isEmpty then [(o, none)] else ms.map (fun r => (o, some r)))
    (fun row => row.1.id)
    OwnerRow.id
    (fun rows => avgOptCoalesce (rows.map (fun row => row.2.map Prod.snd)))
    (by
      intro o ho
      simp only []
      by_cases h : ((apartmentAvgRating s).filter
          (fun ar => decide (o.id = ar.1.2))).isEmpty
      · simp [h]
      · rw [if_neg h, Ne, List.map_eq_nil_iff]
        rw [List.isEmpty_iff] at h
        exact h)
    (by
      intro o ho row hrow
      simp only [] at hrow
      by_cases h : ((apartmentAvgRating s).filter
          (fun ar => decide (o.id = ar.1.2))).isEmpty
      · rw [if_pos h] at hrow
        rcases List.mem_singleton.mp hrow with rfl
        rfl
      · rw [if_neg h] at hrow
        rcases List.mem_map.mp hrow with ⟨r, _, rfl⟩
        rfl)
    hwf.ownersNodup
  rw [show ownerAvgRating s = sqlGroup (s.owners.flatMap (fun o =>
      let ms := (apartmentAvgRating s).filter (fun ar => decide (o.id = ar.1.2))
      if ms.isEmpty then [(o, none)] else ms.map (fun r => (o, some r))))
    (fun row => row.1.id)
    (fun rows => avgOptCoalesce (rows.map (fun row => row.2.map Prod.snd)))
    from rfl]
  rw [hblocks]
  apply List.map_congr_left
  intro o ho
  simp only []
  congr 1
  rw [apartmentAvgRating_eq s hwf, List.filter_map]
  rw [show ((fun (ar : (ℤ × ℤ) × ℚ) => decide (o.id = ar.1.2)) ∘
      (fun l => ((l.apartment, l.owner), apartmentRatingSpec s l.apartment)))
    = (fun l : OwnLink => decide (o.id = l.owner)) from rfl]
  rw [filter_decide_comm s.links OwnLink.owner o.id]
  by_cases hlk : s.links.filter (fun l => decide (l.owner = o.id)) = []
  · rw [hlk]
    simp only [List.map_nil, List.isEmpty_nil, if_pos]
    rw [ownerRatingSpec, ownedApartments, hlk]
    rfl
  · rw [if_neg (by simp [List.isEmpty_iff, hlk])]
    rw [List.map_map, List.map_map]
    rw [ownerRatingSpec, ownedApartments, List.map_map,
      meanOrZero_of_ne_nil (by simp [hlk])]
    show avgOptCoalesce
      ((s.links.filter (fun l => decide (l.owner = o.id))).map
        (fun l => some (apartmentRatingSpec s l.apartment))) = _
    rw [avgOptCoalesce_all_some _ _ hlk]
    rfl

/-- `WF` as one decidable conjunction (same fields, same order), so that
concrete stores can be checked by evaluation. -/
abbrev WFc (s : Store) : Prop :=
  (s.owners.map OwnerRow.id).Nodup ∧
  (s.apartments.map ApartmentRow.id).Nodup ∧
  (s.customers.map CustomerRow.id).Nodup ∧
  (s.links.map OwnLink.apartment).Nodup ∧
  (∀ l ∈ s.links, l.owner ∈ s.owners.map OwnerRow.id) ∧
  (∀ l ∈ s.links, l.apartment ∈ s.apartments.map ApartmentRow.id) ∧
  (∀ r ∈ s.reservations, r.customer ∈ s.customers.map CustomerRow.id) ∧
  (∀ r ∈ s.reservations, r.apartment ∈ s.apartments.map ApartmentRow.id) ∧
  (∀ r ∈ s.reservations, 0 < r.customer ∧ 0 < r.apartment) ∧
  (∀ r ∈ s.reservations, 0 < r.totalPrice) ∧
  (∀ r ∈ s.reservations, r.startDate < r.endDate) ∧
  (s.reservations.map (fun r => (r.apartment, r.startDate))).Nodup ∧
  (∀ r ∈ s.reservations, 1 ≤ r.endDate.m ∧ r.endDate.m ≤ 12) ∧
  (∀ v ∈ s.reviews, v.customer ∈ s.customers.map CustomerRow.id) ∧
  (∀ v ∈ s.reviews, v.apartment ∈ s.apartments.map ApartmentRow.id) ∧
  (∀ v ∈ s.reviews, 0 < v.customer ∧ 0 < v.apartment) ∧
  (∀ v ∈ s.reviews, 1 ≤ v.rating ∧ v.rating ≤ 10) ∧
  (s.reviews.map (fun v => (v.customer, v.apartment))).Nodup

theorem wf_iff (s : Store) : WF s ↔ WFc s :=
  ⟨fun h => ⟨h.ownersNodup, h.apartmentsNodup, h.customersNodup, h.linksNodup,
    h.linksFKo, h.linksFKa, h.resFKc, h.resFKa, h.resPos, h.resPrice,
    h.resDates, h.resUnique, h.resMonthValid, h.revFKc, h.revFKa, h.revPos,
    h.revRating, h.revUnique⟩,
   fun ⟨h1, h2, h3, h4, h5, h6, h7, h8, h9, h10, h11, h12, h13, h14, h15,
      h16, h17, h18⟩ =>
    ⟨h1, h2, h3, h4, h5, h6, h7, h8, h9, h10, h11, h12, h13, h14, h15,
      h16, h17, h18⟩⟩

instance (s : Store) : Decidable (WF s) := decidable_of_iff _ (wf_iff s).symm

/-- Failing input for C1: an existing reservation `[2024-01-05, 2024-01-10)`
on apartment 1 and a request `[2024-01-01, 2024-01-20)` that strictly
contains it. -/
def c1Store : Store :=
  { owners := [], apartments := [⟨1, "addr", "city", "cty", 10⟩],
    customers := [⟨1, "cust"⟩],
    reservations := [⟨1, 1, ⟨2024, 1, 5⟩, ⟨2024, 1, 10⟩, 100⟩],
    reviews := [], links := [] }

/-- C1: the claim is the spec's intent and the code a slip. On a legal store,
a reservation request that strictly contains an existing reservation of the
same apartment overlaps it in the half-open sense, yet
`customer_made_reservation`'s three-clause overlap test misses the
containment case, so the insert succeeds and returns `OK` instead of
failing. Moreover, at the spec's own conflict example
(`[2024-01-12, 2024-01-18)` against `[2024-01-10, 2024-01-15)`) the
operation does fail, but with `BAD_PARAMS`, not the `Conflict` code
`ALREADY_EXISTS`. -/
theorem C1_reserve_overlap_code_bug :
    WF c1Store ∧
    specOverlap ⟨2024, 1, 1⟩ ⟨2024, 1, 20⟩ ⟨2024, 1, 5⟩ ⟨2024, 1, 10⟩ ∧
    customer_made_reservation c1Store 1 1 ⟨2024, 1, 1⟩ ⟨2024, 1, 20⟩ 100
      = (ReturnValue.OK, { c1Store with reservations :=
          c1Store.reservations ++ [⟨1, 1, ⟨2024, 1, 1⟩, ⟨2024, 1, 20⟩, 100⟩] }) ∧
    (customer_made_reservation
        { c1Store with reservations := [⟨1, 1, ⟨2024, 1, 10⟩, ⟨2024, 1, 15⟩, 100⟩] }
        1 1 ⟨2024, 1, 12⟩ ⟨2024, 1, 18⟩ 100).1 = ReturnValue.BAD_PARAMS := by
  exact ⟨by decide, by decide, by decide, by decide⟩

/-- Failing input for C2: apartment 1 exists, customer 1 completed a stay and
left the only review on it (rating 8), but no ownership link exists. -/
def c2Store : Store :=
  { owners := [], apartments := [⟨1, "addr", "city", "cty", 10⟩],
    customers := [⟨1, "cust"⟩],
    reservations := [⟨1, 1, ⟨2024, 1, 5⟩, ⟨2024, 1, 10⟩, 100⟩],
    reviews := [⟨1, 1, ⟨2024, 2, 1⟩, 8, "good"⟩], links := [] }

/-- C2: the claim is the spec's intent and the code a slip. The
`ApartmentAvgRating` view joins through `ApartmentOwners`, so an apartment
that has reviews but no ownership link never appears in it:
`get_apartment_rating` returns `0.0` where the claim (its only review having
rating 8) demands `8.0`. -/
theorem C2_apartment_rating_code_bug :
    WF c2Store ∧
    1 ∈ c2Store.apartments.map ApartmentRow.id ∧
    ratingsOn c2Store 1 = [8] ∧
    apartmentRatingSpec c2Store 1 = 8 ∧
    get_apartment_rating c2Store 1 = 0 := by
  exact ⟨by decide, by decide, by with_unfolding_all decide,
    by with_unfolding_all decide, by with_unfolding_all decide⟩

/-- C6: for every owner present in the store, `get_owner_rating` is the mean
over the owner's apartments of each apartment's average review rating (mean
of means), an unreviewed apartment contributing `0.0`, and an owner with no
apartments rating `0.0` — the content of `ownerRatingSpec`. -/
theorem C6_owner_rating_mean_of_means (s : Store) (o : OwnerRow)
    (hwf : WF s) (ho : o ∈ s.owners) :
    get_owner_rating s o.id = ownerRatingSpec s o.id := by
  have h1 : (ownerAvgRating s).filter (fun row => decide (row.1 = o.id))
      = [(o.id, ownerRatingSpec s o.id)] := by
    rw [ownerAvgRating_eq s hwf, List.filter_map]
    rw [show ((fun (row : ℤ × ℚ) => decide (row.1 = o.id)) ∘
        (fun o' => (o'.id, ownerRatingSpec s o'.id)))
      = (fun o' : OwnerRow => decide (o'.id = o.id)) from rfl]
    rw [filter_key_eq_singleton hwf.ownersNodup ho rfl]
    rfl
  unfold get_owner_rating
  rw [h1]

/-- Concrete store for the C6 witness: owner 1 owns apartments 1 (one review,
rating 8) and 2 (no reviews); the spec example value is 4.0. -/
def c6Store : Store :=
  { owners := [⟨1, "own"⟩],
    apartments := [⟨1, "a1", "city", "cty", 10⟩, ⟨2, "a2", "city", "cty", 20⟩],
    customers := [⟨1, "cust"⟩],
    reservations := [⟨1, 1, ⟨2024, 1, 5⟩, ⟨2024, 1, 10⟩, 100⟩],
    reviews := [⟨1, 1, ⟨2024, 2, 1⟩, 8, "good"⟩],
    links := [⟨1, 1⟩, ⟨1, 2⟩] }

theorem C6_owner_rating_mean_of_means_witness :
    WF c6Store ∧ (⟨1, "own"⟩ : OwnerRow) ∈ c6Store.owners ∧
    get_owner_rating c6Store 1 = ownerRatingSpec c6Store 1 ∧
    get_owner_rating c6Store 1 = 4 :=
  ⟨by decide, by decide,
    C6_owner_rating_mean_of_means c6Store ⟨1, "own"⟩ (by decide) (by decide),
    by with_unfolding_all decide⟩

theorem length_filter_eq_one {α : Type} {l : List α} {p : α → Bool}
    (hnd : l.Nodup) {x : α} (hx : x ∈ l) (hpx : p x = true)
    (huniq : ∀ y ∈ l, p y = true → y = x) : (l.filter p).length = 1 := by
  have hsub : ∀ y ∈ l.filter p, y = x := fun y hy =>
    huniq y (List.mem_filter.mp hy).1 (List.mem_filter.mp hy).2
  have hmem : x ∈ l.filter p := List.mem_filter.mpr ⟨hx, hpx⟩
  have hndf : (l.filter p).Nodup := hnd.filter p
  match hfp : l.filter p with
  | [] => rw [hfp] at hmem; cases hmem
  | [a] => rfl
  | a :: b :: t =>
    rw [hfp] at hsub hndf
    have ha : a = x := hsub a (by simp)
    have hb : b = x := hsub b (by simp)
    rw [List.nodup_cons] at hndf
    exact absurd (ha.trans hb.symm) (fun h => hndf.1 (h ▸ List.mem_cons_self b t))

theorem length_filter_not_aux {α : Type} (l : List α) (p : α → Bool) :
    (l.filter p).length + (l.filter (fun y => !p y)).length = l.length := by
  have := (List.filter_append_perm p l).length_eq
  rw [List.length_append] at this
  exact this

/-- Counterexample store for C9: one reservation by customer 1. -/
def c9Store : Store :=
  { owners := [], apartments := [⟨1, "addr", "city", "cty", 10⟩],
    customers := [⟨1, "cust"⟩],
    reservations := [⟨1, 1, ⟨2024, 1, 5⟩, ⟨2024, 1, 10⟩, 100⟩],
    reviews := [], links := [] }

/-- C9 counterexample: with customer_id 0 no reservation can match, so the
claim demands that the only failure is `NOT_EXISTS`; the Python guard
rejects the non-positive id with `BAD_PARAMS` before querying. -/
theorem C9_cancel_counterexample :
    WF c9Store ∧
    (¬ ∃ r ∈ c9Store.reservations,
        r.customer = 0 ∧ r.apartment = 1 ∧ r.startDate = ⟨2024, 1, 5⟩) ∧
    (customer_cancelled_reservation c9Store 0 1 ⟨2024, 1, 5⟩).1
        = ReturnValue.BAD_PARAMS ∧
    ReturnValue.BAD_PARAMS ≠ ReturnValue.NOT_EXISTS := by
  exact ⟨by decide, by decide, by decide, by decide⟩

/-- C9 (amended): non-positive ids fail with `BAD_PARAMS` first; for positive
ids, `cancel` fails with `NOT_EXISTS` exactly when no reservation matches
customer, apartment and start date, and otherwise deletes that single
matching reservation (exactly one row, by the `(apartment_id, start_date)`
uniqueness) and returns `OK`. -/
theorem C9_cancel_amended (s : Store) (c a : ℤ) (sd : Date) (hwf : WF s) :
    ((c ≤ 0 ∨ a ≤ 0) →
      customer_cancelled_reservation s c a sd = (ReturnValue.BAD_PARAMS, s)) ∧
    (0 < c → 0 < a →
      ((¬ ∃ r ∈ s.reservations,
          r.customer = c ∧ r.apartment = a ∧ r.startDate = sd) →
        customer_cancelled_reservation s c a sd = (ReturnValue.NOT_EXISTS, s)) ∧
      ((∃ r ∈ s.reservations,
          r.customer = c ∧ r.apartment = a ∧ r.startDate = sd) →
        customer_cancelled_reservation s c a sd
          = (ReturnValue.OK,
             { s with reservations :=
                 s.reservations.filter (fun r => !decide (r.customer = c ∧
                   r.apartment = a ∧ r.startDate = sd)) }) ∧
        (customer_cancelled_reservation s c a sd).2.reservations.length + 1
          = s.reservations.length)) := by
  constructor
  · intro hinv
    unfold customer_cancelled_reservation
    rw [if_pos hinv]
  · intro hc ha
    have hval : ¬ (c ≤ 0 ∨ a ≤ 0) := by
      push_neg
      exact ⟨hc, ha⟩
    constructor
    · intro hno
      unfold customer_cancelled_reservation
      rw [if_neg hval, if_pos (by
        rw [List.any_eq_true]
        rintro ⟨r, hr, hcond⟩
        rw [decide_eq_true_eq] at hcond
        exact hno ⟨r, hr, hcond⟩)]
    · intro hex
      obtain ⟨r0, hr0, hcond0⟩ := hex
      have hany : s.reservations.any (fun r =>
          decide (r.customer = c ∧ r.apartment = a ∧ r.startDate = sd)) = true := by
        rw [List.any_eq_true]
        exact ⟨r0, hr0, by rw [decide_eq_true_eq]; exact hcond0⟩
      have hres : customer_cancelled_reservation s c a sd
          = (ReturnValue.OK,
             { s with reservations :=
                 s.reservations.filter (fun r => !decide (r.customer = c ∧
                   r.apartment = a ∧ r.startDate = sd)) }) := by
        unfold customer_cancelled_reservation
        rw [if_neg hval, if_neg (not_not_intro hany)]
      refine ⟨hres, ?_⟩
      rw [hres]
      have hnd : s.reservations.Nodup :=
        List.Nodup.of_map (fun r => (r.apartment, r.startDate)) hwf.resUnique
      have hone : (s.reservations.filter (fun r =>
          decide (r.customer = c ∧ r.apartment = a ∧
            r.startDate = sd))).length = 1 := by
        apply length_filter_eq_one hnd hr0
          (by rw [decide_eq_true_eq]; exact hcond0)
        intro y hy hpy
        rw [decide_eq_true_eq] at hpy
        exact List.inj_on_of_nodup_map hwf.resUnique hy hr0
          (by rw [hpy.2.1, hpy.2.2, hcond0.2.1, hcond0.2.2])
      have htot := length_filter_not_aux s.reservations (fun r =>
        decide (r.customer = c ∧ r.apartment = a ∧ r.startDate = sd))
      simp only []
      omega

theorem C9_cancel_amended_witness :
    customer_cancelled_reservation c9Store 1 1 ⟨2024, 1, 5⟩
      = (ReturnValue.OK,
         { c9Store with reservations :=
             c9Store.reservations.filter (fun r => !decide (r.customer = 1 ∧
               r.apartment = 1 ∧ r.startDate = ⟨2024, 1, 5⟩)) }) ∧
    (customer_cancelled_reservation c9Store 1 1 ⟨2024, 1, 5⟩).2.reservations.length + 1
      = c9Store.reservations.length :=
  ((C9_cancel_amended c9Store 1 1 ⟨2024, 1, 5⟩ (by decide)).2 (by decide)
      (by decide)).2
    ⟨⟨1, 1, ⟨2024, 1, 5⟩, ⟨2024, 1, 10⟩, 100⟩, by decide, by decide⟩

theorem updateReviewRow_idem (c a : ℤ) (d : Date) (r : ℤ) (t : String)
    (v : Review) :
    updateReviewRow c a d r t (updateReviewRow c a d r t v)
      = updateReviewRow c a d r t v := by
  by_cases h : v.customer = c ∧ v.apartment = a ∧ v.reviewDate ≤ d
  · have h1 : updateReviewRow c a d r t v
        = { v with reviewDate := d, rating := r, text := t } := by
      unfold updateReviewRow
      rw [if_pos h]
    rw [h1]
    unfold updateReviewRow
    rw [if_pos ⟨h.1, h.2.1, Date.le_refl d⟩]
  · have h1 : updateReviewRow c a d r t v = v := by
      unfold updateReviewRow
      rw [if_neg h]
    rw [h1, h1]

/-- Counterexample store for C8: an empty database. -/
def c8Store : Store := ⟨[], [], [], [], [], []⟩

/-- C8 counterexample: no review exists for the pair (1, 1), so the claim's
second part demands `NOT_EXISTS` for `update_review(1, 1, 2024-03-01, 15,
"x")`; the code instead answers `BAD_PARAMS` because the rating is out of
range, checking parameters before reporting the missing review. -/
theorem C8_update_review_counterexample :
    c8Store.reviews = [] ∧
    (customer_updated_review c8Store 1 1 ⟨2024, 3, 1⟩ 15 "x").1
        = ReturnValue.BAD_PARAMS ∧
    ReturnValue.BAD_PARAMS ≠ ReturnValue.NOT_EXISTS := by
  exact ⟨by decide, by decide, by decide⟩

/-- C8 (amended): `update_review` is idempotent — if a call succeeds,
repeating it with identical arguments returns the same success result and
leaves the store unchanged — and it fails with `NOT_EXISTS` whenever no
review of the pair has `review_date ≤ new_date` **and** the arguments are
valid (positive ids, rating in 1..10); with invalid arguments the failure is
`BAD_PARAMS` instead. -/
theorem C8_update_review_amended (s : Store) (c a : ℤ) (d : Date) (r : ℤ)
    (t : String) :
    (∀ s', customer_updated_review s c a d r t = (ReturnValue.OK, s') →
      customer_updated_review s' c a d r t = (ReturnValue.OK, s')) ∧
    ((¬ ∃ v ∈ s.reviews, v.customer = c ∧ v.apartment = a ∧ v.reviewDate ≤ d) →
      ¬ (c ≤ 0 ∨ a ≤ 0 ∨ r < 1 ∨ 10 < r) →
      customer_updated_review s c a d r t = (ReturnValue.NOT_EXISTS, s)) := by
  constructor
  · intro s' h
    unfold customer_updated_review at h ⊢
    by_cases h1 : s.reviews.any (fun v =>
        decide (v.customer = c ∧ v.apartment = a ∧ v.reviewDate ≤ d)) = true
    · rw [if_neg (not_not_intro h1)] at h
      by_cases h2 : r < 1 ∨ 10 < r
      · rw [if_pos h2] at h
        simp at h
      · rw [if_neg h2] at h
        have hs' : s' =
            { s with reviews :=
                s.reviews.map (updateReviewRow c a d r t) } :=
          (congrArg Prod.snd h).symm
        subst hs'
        rw [List.any_eq_true] at h1
        obtain ⟨v0, hv0, hcond0⟩ := h1
        rw [decide_eq_true_eq] at hcond0
        have hany2 : (s.reviews.map (updateReviewRow c a d r t)).any (fun v =>
            decide (v.customer = c ∧ v.apartment = a ∧ v.reviewDate ≤ d))
              = true := by
          rw [List.any_eq_true]
          refine ⟨updateReviewRow c a d r t v0, List.mem_map_of_mem _ hv0, ?_⟩
          rw [decide_eq_true_eq, updateReviewRow, if_pos hcond0]
          exact ⟨hcond0.1, hcond0.2.1, Date.le_refl d⟩
        rw [if_neg (not_not_intro hany2), if_neg h2]
        refine Prod.ext rfl ?_
        have hml : (s.reviews.map (updateReviewRow c a d r t)).map
              (updateReviewRow c a d r t)
            = s.reviews.map (updateReviewRow c a d r t) := by
          rw [List.map_map]
          exact List.map_congr_left (fun v _ => updateReviewRow_idem c a d r t v)
        exact congrArg (fun L => ({ s with reviews := L } : Store)) hml
    · rw [if_pos h1] at h
      split_ifs at h <;> simp at h
  · intro hno hvalid
    unfold customer_updated_review
    rw [if_pos (by
        rw [List.any_eq_true]
        rintro ⟨v, hv, hcond⟩
        rw [decide_eq_true_eq] at hcond
        exact hno ⟨v, hv, hcond⟩),
      if_neg hvalid]

/-- Concrete store for the C8 witness: customer 1 completed a stay on
apartment 1 and reviewed it (rating 7). -/
def c8wStore : Store :=
  { owners := [], apartments := [⟨1, "addr", "city", "cty", 10⟩],
    customers := [⟨1, "cust"⟩],
    reservations := [⟨1, 1, ⟨2024, 1, 5⟩, ⟨2024, 1, 10⟩, 100⟩],
    reviews := [⟨1, 1, ⟨2024, 2, 1⟩, 7, "ok"⟩], links := [] }

set_option maxRecDepth 4000 in
theorem C8_update_review_amended_witness :
    customer_updated_review
        { c8wStore with reviews :=
            c8wStore.reviews.map (updateReviewRow 1 1 ⟨2024, 3, 1⟩ 9 "x") }
        1 1 ⟨2024, 3, 1⟩ 9 "x"
      = (ReturnValue.OK,
         { c8wStore with reviews :=
             c8wStore.reviews.map (updateReviewRow 1 1 ⟨2024, 3, 1⟩ 9 "x") }) :=
  (C8_update_review_amended c8wStore 1 1 ⟨2024, 3, 1⟩ 9 "x").1
    { c8wStore with reviews :=
        c8wStore.reviews.map (updateReviewRow 1 1 ⟨2024, 3, 1⟩ 9 "x") }
    (by with_unfolding_all decide)

/-- C7: `review` fails with `BAD_PARAMS` (InvalidInput) whenever the rating
is outside 1..10 or an id is non-positive; with valid arguments it fails
with `NOT_EXISTS` (NotFound) exactly when no reservation of that customer on
that apartment has `end_date ≤ review_date`, fails with `ALREADY_EXISTS`
(Conflict) when such a reservation exists but the pair already has a review,
and otherwise inserts exactly one review row and succeeds. -/
theorem C7_review_admission (s : Store) (c a : ℤ) (d : Date) (r : ℤ)
    (t : String) (hwf : WF s) :
    ((c ≤ 0 ∨ a ≤ 0 ∨ r < 1 ∨ 10 < r) →
      customer_reviewed_apartment s c a d r t = (ReturnValue.BAD_PARAMS, s)) ∧
    (¬ (c ≤ 0 ∨ a ≤ 0 ∨ r < 1 ∨ 10 < r) →
      ((¬ ∃ res ∈ s.reservations,
          res.customer = c ∧ res.apartment = a ∧ res.endDate ≤ d) →
        customer_reviewed_apartment s c a d r t = (ReturnValue.NOT_EXISTS, s)) ∧
      ((∃ res ∈ s.reservations,
          res.customer = c ∧ res.apartment = a ∧ res.endDate ≤ d) →
        ((∃ v ∈ s.reviews, v.customer = c ∧ v.apartment = a) →
          customer_reviewed_apartment s c a d r t
            = (ReturnValue.ALREADY_EXISTS, s)) ∧
        ((¬ ∃ v ∈ s.reviews, v.customer = c ∧ v.apartment = a) →
          customer_reviewed_apartment s c a d r t
            = (ReturnValue.OK,
               { s with reviews := s.reviews ++ [⟨c, a, d, r, t⟩] })))) := by
  have hiffE : (s.reservations.any (fun res =>
      decide (res.apartment = a ∧ res.endDate ≤ d ∧ c = res.customer)) = true)
      ↔ ∃ res ∈ s.reservations,
          res.customer = c ∧ res.apartment = a ∧ res.endDate ≤ d := by
    rw [List.any_eq_true]
    constructor
    · rintro ⟨res, hres, hcond⟩
      rw [decide_eq_true_eq] at hcond
      exact ⟨res, hres, hcond.2.2.symm, hcond.1, hcond.2.1⟩
    · rintro ⟨res, hres, h1, h2, h3⟩
      exact ⟨res, hres, by rw [decide_eq_true_eq]; exact ⟨h2, h3, h1.symm⟩⟩
  have hiffD : (s.reviews.any (fun v =>
      decide (v.customer = c ∧ v.apartment = a)) = true)
      ↔ ∃ v ∈ s.reviews, v.customer = c ∧ v.apartment = a := by
    rw [List.any_eq_true]
    constructor
    · rintro ⟨v, hv, hcond⟩
      rw [decide_eq_true_eq] at hcond
      exact ⟨v, hv, hcond⟩
    · rintro ⟨v, hv, hcond⟩
      exact ⟨v, hv, by rw [decide_eq_true_eq]; exact hcond⟩
  constructor
  · intro hinv
    unfold customer_reviewed_apartment
    by_cases hE : s.reservations.any (fun res =>
        decide (res.apartment = a ∧ res.endDate ≤ d ∧ c = res.customer)) = true
    · rw [if_neg (not_not_intro hE), if_pos (by tauto)]
    · rw [if_pos hE, if_pos hinv]
  · intro hval
    constructor
    · intro hno
      unfold customer_reviewed_apartment
      rw [if_pos (fun hE => hno (hiffE.mp hE)), if_neg hval]
    · intro hex
      have hE := hiffE.mpr hex
      constructor
      · intro hdup
        unfold customer_reviewed_apartment
        rw [if_neg (not_not_intro hE), if_neg (by tauto),
          if_pos (hiffD.mpr hdup)]
      · intro hnodup
        obtain ⟨res, hres, h1, h2, _⟩ := hex
        unfold customer_reviewed_apartment
        rw [if_neg (not_not_intro hE), if_neg (by tauto),
          if_neg (by
            rw [hiffD]
            exact hnodup),
          if_neg (by
            rw [not_not]
            exact ⟨h1 ▸ hwf.resFKc res hres, h2 ▸ hwf.resFKa res hres⟩)]

/-- Concrete store for the C7 witness: customer 1 completed a stay on
apartment 1 ending 2024-01-10 and has not reviewed it. -/
def c7Store : Store :=
  { owners := [], apartments := [⟨1, "addr", "city", "cty", 10⟩],
    customers := [⟨1, "cust"⟩],
    reservations := [⟨1, 1, ⟨2024, 1, 5⟩, ⟨2024, 1, 10⟩, 100⟩],
    reviews := [], links := [] }

theorem C7_review_admission_witness :
    customer_reviewed_apartment c7Store 1 1 ⟨2024, 1, 10⟩ 5 "t"
      = (ReturnValue.OK,
         { c7Store with reviews :=
             c7Store.reviews ++ [⟨1, 1, ⟨2024, 1, 10⟩, 5, "t"⟩] }) :=
  (((C7_review_admission c7Store 1 1 ⟨2024, 1, 10⟩ 5 "t" (by decide)).2
      (by decide)).2
    ⟨⟨1, 1, ⟨2024, 1, 5⟩, ⟨2024, 1, 10⟩, 100⟩, by decide, by decide⟩).2
    (by decide)

theorem clamp110_bounds (x : ℚ) : 1 ≤ clamp110 x ∧ clamp110 x ≤ 10 := by
  constructor
  · exact le_max_right _ _
  · exact max_le (min_le_right _ _) (by norm_num)

theorem mem_UA_dest (s : Store) (c x : ℤ)
    (hm : (c, x) ∈ unreviewedApartments s) :
    (∃ v ∈ s.reviews, v.customer = c) ∧
    (∀ v ∈ s.reviews, ¬ (v.customer = c ∧ v.apartment = x)) := by
  rw [unreviewedApartments, List.mem_dedup, List.mem_flatMap] at hm
  obtain ⟨c', hc', hmem⟩ := hm
  rw [List.mem_map] at hmem
  obtain ⟨ap, hap, heq⟩ := hmem
  rw [List.mem_filter] at hap
  obtain ⟨hapmem, hcond⟩ := hap
  have hc : c'.customer = c := congrArg Prod.fst heq
  have hx : ap.id = x := congrArg Prod.snd heq
  refine ⟨⟨c', hc', hc⟩, ?_⟩
  intro v hv hvc
  rw [Bool.not_eq_true', List.any_eq_false] at hcond
  exact hcond v hv (by
    rw [decide_eq_true_eq]
    exact ⟨hvc.1.trans hc.symm, hx.trans hvc.2.symm⟩)

theorem rec_mem_chain (s : Store) (cid : ℤ) (p : ApartmentRow × ℚ)
    (hp : p ∈ get_apartment_recommendation s cid) :
    (cid, p.1.id) ∈ unreviewedApartments s ∧
    ∃ L : List (CUARRow × Review), L ≠ [] ∧
      p.2 = avgQ (L.map (fun row =>
        clamp110 ((row.2.rating : ℚ) * row.1.avgRatio))) := by
  rw [get_apartment_recommendation, List.mem_map] at hp
  obtain ⟨row, hrow, hpeq⟩ := hp
  rw [List.mem_filter, decide_eq_true_eq] at hrow
  obtain ⟨hrowmem, hcid⟩ := hrow
  rw [customerUnreviewedApartmentsFullData, List.mem_flatMap] at hrowmem
  obtain ⟨cRow, hcRow, hrow2⟩ := hrowmem
  rw [List.mem_map] at hrow2
  obtain ⟨aRow, haRow, heq2⟩ := hrow2
  subst heq2
  have hp1 : p.1.id = cRow.1.2 := by rw [← hpeq]
  have hp2 : p.2 = cRow.2 := by rw [← hpeq]
  rw [customersUnreviewedApartmentsFilter, sqlGroup, List.mem_map] at hcRow
  obtain ⟨k, hk, hcRoweq⟩ := hcRow
  subst hcRoweq
  rw [List.mem_dedup, List.mem_map] at hk
  obtain ⟨jrow, hjrow, hkey⟩ := hk
  have hL : jrow ∈ ((customersUnreviewedApartmentsAvgRatio s).flatMap (fun c =>
      (s.reviews.filter (fun a =>
          decide (c.custB = a.customer ∧ c.unreviewed = a.apartment))).map
        (fun a => (c, a)))).filter
      (fun r => decide ((r.1.custA, r.1.unreviewed) = k)) :=
    List.mem_filter.mpr ⟨hjrow, by rw [decide_eq_true_eq]; exact hkey⟩
  constructor
  · rw [List.mem_flatMap] at hjrow
    obtain ⟨cuar, hcuar, hjr2⟩ := hjrow
    rw [List.mem_map] at hjr2
    obtain ⟨rev, hrev, heq3⟩ := hjr2
    subst heq3
    rw [customersUnreviewedApartmentsAvgRatio, List.mem_flatMap] at hcuar
    obtain ⟨cr, hcr, hcu2⟩ := hcuar
    rw [List.mem_map] at hcu2
    obtain ⟨u, hu, heq4⟩ := hcu2
    subst heq4
    rw [List.mem_filter] at hu
    have hk1 : k.1 = cid := hcid
    have hcru : cr.1.1 = u.1 := by
      have h := hu.2
      rw [decide_eq_true_eq] at h
      exact h
    have hkey2 : (cr.1.1, u.2) = k := hkey
    have hp1k : p.1.id = k.2 := hp1
    have h1 : u.1 = cid :=
      hcru.symm.trans ((congrArg Prod.fst hkey2).trans hk1)
    have h2 : u.2 = p.1.id :=
      (congrArg Prod.snd hkey2).trans hp1k.symm
    have hueq : u = (cid, p.1.id) := Prod.ext h1 h2
    rw [← hueq]
    exact hu.1
  · refine ⟨_, List.ne_nil_of_mem hL, ?_⟩
    exact hp2

theorem avgQ_clamped_mem (L : List (CUARRow × Review)) (hne : L ≠ []) :
    1 ≤ avgQ (L.map (fun row =>
        clamp110 ((row.2.rating : ℚ) * row.1.avgRatio))) ∧
    avgQ (L.map (fun row =>
        clamp110 ((row.2.rating : ℚ) * row.1.avgRatio))) ≤ 10 := by
  apply avgQ_bounds
  · rw [Ne, List.map_eq_nil_iff]
    exact hne
  · intro x hx
    rw [List.mem_map] at hx
    obtain ⟨row, _, hxe⟩ := hx
    rw [← hxe]
    exact clamp110_bounds _

/-- C4: every pair returned by `get_apartment_recommendation(customer_id)`
names an apartment that customer has not reviewed, and its expected rating
lies in `[1, 10]`: each per-peer prediction `peer_rating × avg_ratio` is
clamped to `[1, 10]` before the qualifying peers' predictions are
averaged. -/
theorem C4_recommendation_unreviewed_and_bounded (s : Store) (cid : ℤ)
    (p : ApartmentRow × ℚ) (hp : p ∈ get_apartment_recommendation s cid) :
    (∀ v ∈ s.reviews, ¬ (v.customer = cid ∧ v.apartment = p.1.id)) ∧
    1 ≤ p.2 ∧ p.2 ≤ 10 := by
  obtain ⟨hua, L, hLne, hLeq⟩ := rec_mem_chain s cid p hp
  refine ⟨(mem_UA_dest s cid p.1.id hua).2, ?_⟩
  rw [hLeq]
  exact avgQ_clamped_mem L hLne

/-- Concrete store for the C4 witness: customer 1 rated apartment 1 with 4,
customer 2 rated apartment 1 with 8 and apartment 2 with 6; the single
prediction for customer 1 on apartment 2 is `6 × (4/8) = 3`. -/
def c4Store : Store :=
  { owners := [],
    apartments := [⟨1, "a1", "city", "cty", 10⟩, ⟨2, "a2", "city", "cty", 20⟩],
    customers := [⟨1, "cust1"⟩, ⟨2, "cust2"⟩],
    reservations := [⟨1, 1, ⟨2024, 1, 5⟩, ⟨2024, 1, 10⟩, 100⟩,
      ⟨2, 1, ⟨2024, 1, 10⟩, ⟨2024, 1, 15⟩, 100⟩,
      ⟨2, 2, ⟨2024, 1, 5⟩, ⟨2024, 1, 10⟩, 100⟩],
    reviews := [⟨1, 1, ⟨2024, 2, 1⟩, 4, "t"⟩, ⟨2, 1, ⟨2024, 2, 1⟩, 8, "t"⟩,
      ⟨2, 2, ⟨2024, 2, 1⟩, 6, "t"⟩],
    links := [] }

set_option maxRecDepth 8000 in
theorem C4_recommendation_unreviewed_and_bounded_witness :
    (∀ v ∈ c4Store.reviews,
      ¬ (v.customer = 1 ∧ v.apartment
          = ((⟨2, "a2", "city", "cty", 20⟩ : ApartmentRow), (3 : ℚ)).1.id)) ∧
    1 ≤ ((⟨2, "a2", "city", "cty", 20⟩ : ApartmentRow), (3 : ℚ)).2 ∧
    ((⟨2, "a2", "city", "cty", 20⟩ : ApartmentRow), (3 : ℚ)).2 ≤ 10 :=
  C4_recommendation_unreviewed_and_bounded c4Store 1
    (⟨2, "a2", "city", "cty", 20⟩, 3) (by with_unfolding_all decide)

/-- C10: a customer that appears in no review gets an empty recommendation
list — candidate unreviewed apartments are generated only for customers
present in the reviews table, whatever else the store contains. -/
theorem C10_no_reviews_empty_recommendation (s : Store) (cid : ℤ)
    (h : ∀ v ∈ s.reviews, v.customer ≠ cid) :
    get_apartment_recommendation s cid = [] := by
  rw [List.eq_nil_iff_forall_not_mem]
  intro p hp
  obtain ⟨hua, _⟩ := rec_mem_chain s cid p hp
  obtain ⟨⟨v, hv, hvc⟩, _⟩ := mem_UA_dest s cid p.1.id hua
  exact h v hv hvc

theorem C10_no_reviews_empty_recommendation_witness :
    get_apartment_recommendation c4Store 3 = [] :=
  C10_no_reviews_empty_recommendation c4Store 3 (by decide)

theorem mem_monthsList (m : ℤ) : m ∈ monthsList ↔ 1 ≤ m ∧ m ≤ 12 := by
  rw [monthsList]
  constructor
  · intro h
    rw [List.mem_map] at h
    obtain ⟨i, hi, rfl⟩ := h
    rw [List.mem_range] at hi
    omega
  · rintro ⟨h1, h2⟩
    rw [List.mem_map]
    refine ⟨(m - 1).toNat, ?_, by omega⟩
    rw [List.mem_range]
    omega

theorem monthsList_nodup : monthsList.Nodup := by decide

theorem eraseFold : ∀ (ks : List ℤ) (l : List ℤ), l.Nodup →
    ks.foldl List.erase l = l.filter (fun m => !decide (m ∈ ks)) := by
  intro ks
  induction ks with
  | nil =>
    intro l _
    simp
  | cons k ks ih =>
    intro l hnd
    rw [List.foldl_cons, ih (l.erase k) (hnd.erase k)]
    rw [hnd.erase_eq_filter k, List.filter_filter]
    apply List.filter_congr
    intro m _
    by_cases h1 : m = k <;> by_cases h2 : m ∈ ks <;> simp [h1, h2]

theorem sum_indicator_q : ∀ (keys : List ℤ), keys.Nodup → ∀ (k0 : ℤ) (w : ℚ),
    k0 ∈ keys →
    (keys.map (fun k => if k0 = k then w else 0)).sum = w := by
  intro keys
  induction keys with
  | nil =>
    intro _ k0 w hk
    cases hk
  | cons k ks ih =>
    intro hnd k0 w hk
    rw [List.map_cons, List.sum_cons]
    rw [List.nodup_cons] at hnd
    rcases List.mem_cons.mp hk with rfl | hk'
    · rw [if_pos rfl]
      have hz : (ks.map (fun k => if k0 = k then w else 0)).sum = 0 :=
        List.sum_eq_zero (by
          intro x hx
          rw [List.mem_map] at hx
          obtain ⟨k', hk', rfl⟩ := hx
          rw [if_neg (fun hh => hnd.1 (by rw [hh]; exact hk'))])
      rw [hz, add_zero]
    · have hne : ¬ (k0 = k) := fun hh => hnd.1 (by rw [← hh]; exact hk')
      rw [if_neg hne, ih hnd.2 k0 w hk', zero_add]

theorem sum_partition {ρ : Type} (keys : List ℤ) (hknd : keys.Nodup)
    (key : ρ → ℤ) (w : ρ → ℚ) :
    ∀ (L : List ρ), (∀ r ∈ L, key r ∈ keys) →
    (keys.map (fun k =>
        ((L.filter (fun r => decide (key r = k))).map w).sum)).sum
      = (L.map w).sum := by
  intro L
  induction L with
  | nil =>
    intro _
    simp
  | cons r L' ih =>
    intro hall
    have step : ∀ k : ℤ,
        (((r :: L').filter (fun x => decide (key x = k))).map w).sum
          = (if key r = k then w r else 0)
            + ((L'.filter (fun x => decide (key x = k))).map w).sum := by
      intro k
      by_cases h : key r = k
      · rw [List.filter_cons_of_pos (by simp [h]), List.map_cons, List.sum_cons,
          if_pos h]
      · rw [List.filter_cons_of_neg (by simp [h]), if_neg h, zero_add]
    rw [List.map_congr_left (fun k _ => step k), List.sum_map_add,
      ih (fun x hx => hall x (by simp [hx])),
      sum_indicator_q keys hknd (key r) (w r) (hall r (by simp)),
      List.map_cons, List.sum_cons]

theorem aggProfit_eq (l : List Reservation) :
    (l.map (fun r => r.totalPrice * (15 / 100 : ℚ))).sum
      = (15 / 100 : ℚ) * (l.map Reservation.totalPrice).sum := by
  rw [List.sum_map_mul_right, mul_comm]

theorem fill_sort_core (ks : List ℤ) (f : ℤ → ℚ) (hnd : ks.Nodup)
    (hsub : ∀ m ∈ ks, m ∈ monthsList)
    (hzero : ∀ m, m ∉ ks → f m = 0) :
    ((ks.map (fun m => (m, f m))).insertionSort byMonthLE
       ++ (((ks.map (fun m => (m, f m))).insertionSort byMonthLE).foldl
            (fun acc r => acc.erase r.1) monthsList).map
          (fun m => (m, (0 : ℚ)))).insertionSort byMonthLE
      = monthsList.map (fun m => (m, f m)) := by
  have h1 : (ks.map (fun m => (m, f m))).insertionSort byMonthLE
      ~ ks.map (fun m => (m, f m)) := List.perm_insertionSort _ _
  have hkeys : ((ks.map (fun m => (m, f m))).insertionSort byMonthLE).map
      Prod.fst ~ ks := by
    have h4 := h1.map Prod.fst
    rw [List.map_map, show (Prod.fst ∘ fun m : ℤ => (m, f m)) = id from rfl,
      List.map_id] at h4
    exact h4
  have hmissing : ((ks.map (fun m => (m, f m))).insertionSort byMonthLE).foldl
      (fun acc r => acc.erase r.1) monthsList
      = monthsList.filter (fun m => !decide (m ∈ ks)) := by
    rw [show ((ks.map (fun m => (m, f m))).insertionSort byMonthLE).foldl
        (fun acc r => acc.erase r.1) monthsList
        = ((((ks.map (fun m => (m, f m))).insertionSort byMonthLE).map
            Prod.fst).foldl List.erase monthsList)
      from (List.foldl_map _ _ _ _).symm]
    rw [eraseFold _ monthsList monthsList_nodup]
    apply List.filter_congr
    intro m _
    congr 1
    exact decide_eq_decide.mpr hkeys.mem_iff
  rw [hmissing]
  have hperm : ((ks.map (fun m => (m, f m))).insertionSort byMonthLE
        ++ (monthsList.filter (fun m => !decide (m ∈ ks))).map
          (fun m => (m, (0 : ℚ))))
      ~ monthsList.map (fun m => (m, f m)) := by
    have hz : (monthsList.filter (fun m => !decide (m ∈ ks))).map
        (fun m => (m, (0 : ℚ)))
        = (monthsList.filter (fun m => !decide (m ∈ ks))).map
          (fun m => (m, f m)) := by
      apply List.map_congr_left
      intro m hm
      rw [List.mem_filter] at hm
      have hmk : m ∉ ks := by simpa using hm.2
      rw [hzero m hmk]
    have hks : ks ~ monthsList.filter (fun m => decide (m ∈ ks)) := by
      rw [List.perm_ext_iff_of_nodup hnd (monthsList_nodup.filter _)]
      intro m
      rw [List.mem_filter]
      constructor
      · intro hm
        exact ⟨hsub m hm, by simpa using hm⟩
      · intro hm
        simpa using hm.2
    calc (ks.map (fun m => (m, f m))).insertionSort byMonthLE
          ++ (monthsList.filter (fun m => !decide (m ∈ ks))).map
            (fun m => (m, (0 : ℚ)))
        ~ ks.map (fun m => (m, f m))
            ++ (monthsList.filter (fun m => !decide (m ∈ ks))).map
              (fun m => (m, (0 : ℚ))) := h1.append_right _
      _ = ks.map (fun m => (m, f m))
            ++ (monthsList.filter (fun m => !decide (m ∈ ks))).map
              (fun m => (m, f m)) := by rw [hz]
      _ ~ (monthsList.filter (fun m => decide (m ∈ ks))).map (fun m => (m, f m))
            ++ (monthsList.filter (fun m => !decide (m ∈ ks))).map
              (fun m => (m, f m)) := (hks.map _).append_right _
      _ = ((monthsList.filter (fun m => decide (m ∈ ks)))
            ++ (monthsList.filter (fun m => !decide (m ∈ ks)))).map
              (fun m => (m, f m)) := (List.map_append _ _ _).symm
      _ ~ monthsList.map (fun m => (m, f m)) :=
          (List.filter_append_perm _ _).map _
  set final := ((ks.map (fun m => (m, f m))).insertionSort byMonthLE
      ++ (monthsList.filter (fun m => !decide (m ∈ ks))).map
        (fun m => (m, (0 : ℚ)))).insertionSort byMonthLE with hfinal
  have hfinal_perm : final ~ monthsList.map (fun m => (m, f m)) :=
    (List.perm_insertionSort _ _).trans hperm
  have hsortedLE : List.Sorted byMonthLE final := List.sorted_insertionSort _ _
  have hkeysNodup : (final.map Prod.fst).Nodup := by
    have h2 := hfinal_perm.map Prod.fst
    have h3 : (monthsList.map (fun m => (m, f m))).map Prod.fst = monthsList := by
      rw [List.map_map, show (Prod.fst ∘ fun m : ℤ => (m, f m)) = id from rfl,
        List.map_id]
    rw [h3] at h2
    exact h2.nodup_iff.mpr monthsList_nodup
  have hsortedLT : List.Sorted byMonthLT final := by
    have hpne := List.pairwise_map.mp hkeysNodup
    exact (hsortedLE.and hpne).imp (fun h => lt_of_le_of_ne h.1 h.2)
  have hsortedT : List.Sorted byMonthLT (monthsList.map (fun m => (m, f m))) := by
    rw [List.Sorted, List.pairwise_map]
    show List.Pairwise (fun a b : ℤ => a < b) monthsList
    decide
  exact List.eq_of_perm_of_sorted hfinal_perm hsortedLT hsortedT

/-- C5: `profit_per_month(Y)` is exactly the list of pairs
`(m, 0.15 × revenue of reservations ending in month m of year Y)` for the
twelve months `1..12` in ascending order (a month with no qualifying
reservation reporting `0.0`), and its twelve values sum to 0.15 × the total
revenue of reservations ending in year `Y`. -/
theorem C5_profit_per_month (s : Store) (Y : ℤ) (hwf : WF s) :
    profit_per_month s Y = monthsList.map (fun m => (m, specProfit s Y m)) ∧
    ((profit_per_month s Y).map Prod.snd).sum
      = (15 / 100 : ℚ) * ((s.reservations.filter
          (fun r => decide (r.endDate.y = Y))).map Reservation.totalPrice).sum := by
  have hG : sqlGroup (s.reservations.filter (fun r => decide (r.endDate.y = Y)))
      (fun r => r.endDate.m)
      (fun grp => (grp.map (fun r => r.totalPrice * (15 / 100 : ℚ))).sum)
      = ((s.reservations.filter (fun r => decide (r.endDate.y = Y))).map
          (fun r => r.endDate.m)).dedup.map (fun m => (m, specProfit s Y m)) := by
    rw [sqlGroup]
    apply List.map_congr_left
    intro m _
    congr 1
    rw [aggProfit_eq]
    rfl
  have hrowsEq : profitRows s Y
      = (((s.reservations.filter (fun r => decide (r.endDate.y = Y))).map
          (fun r => r.endDate.m)).dedup.map
            (fun m => (m, specProfit s Y m))).insertionSort byMonthLE := by
    rw [profitRows, hG]
  have hmain : profit_per_month s Y
      = monthsList.map (fun m => (m, specProfit s Y m)) := by
    by_cases hempty : (profitRows s Y).isEmpty
    · have hnil : (s.reservations.filter
          (fun r => decide (r.endDate.y = Y))) = [] := by
        rw [hrowsEq, List.isEmpty_iff] at hempty
        have hp := List.perm_insertionSort byMonthLE
          (((s.reservations.filter (fun r => decide (r.endDate.y = Y))).map
            (fun r => r.endDate.m)).dedup.map (fun m => (m, specProfit s Y m)))
        rw [hempty] at hp
        have hx := hp.symm.eq_nil
        rw [List.map_eq_nil_iff, List.dedup_eq_nil, List.map_eq_nil_iff] at hx
        exact hx
      simp only [profit_per_month]
      rw [if_pos hempty]
      apply List.map_congr_left
      intro m _
      have hz : specProfit s Y m = 0 := by
        rw [specProfit, hnil]
        simp
      rw [hz]
    · simp only [profit_per_month]
      rw [if_neg hempty, hrowsEq]
      apply fill_sort_core
      · exact List.nodup_dedup _
      · intro m hm
        rw [List.mem_dedup, List.mem_map] at hm
        obtain ⟨r, hr, rfl⟩ := hm
        rw [List.mem_filter] at hr
        exact (mem_monthsList _).mpr (hwf.resMonthValid r hr.1)
      · intro m hm
        rw [List.mem_dedup] at hm
        rw [specProfit]
        have hf : ((s.reservations.filter
            (fun r => decide (r.endDate.y = Y))).filter
              (fun r => decide (r.endDate.m = m))) = [] := by
          rw [List.filter_eq_nil_iff]
          intro r hr hcond
          rw [decide_eq_true_eq] at hcond
          exact hm (hcond ▸ List.mem_map_of_mem (fun r => r.endDate.m) hr)
        rw [hf]
        simp
  refine ⟨hmain, ?_⟩
  rw [hmain, List.map_map]
  rw [show (Prod.snd ∘ fun m : ℤ => (m, specProfit s Y m))
      = fun m => specProfit s Y m from rfl]
  rw [show (monthsList.map (fun m => specProfit s Y m)).sum
      = (monthsList.map (fun m => (15 / 100 : ℚ) *
          (((s.reservations.filter (fun r => decide (r.endDate.y = Y))).filter
            (fun r => decide (r.endDate.m = m))).map
              Reservation.totalPrice).sum)).sum from rfl]
  rw [List.sum_map_mul_left]
  congr 1
  exact sum_partition monthsList monthsList_nodup (fun r => r.endDate.m)
    Reservation.totalPrice
    (s.reservations.filter (fun r => decide (r.endDate.y = Y)))
    (fun r hr => (mem_monthsList _).mpr
      (hwf.resMonthValid r (List.mem_filter.mp hr).1))

theorem flatMap_congr {ι ρ : Type} {l : List ι} {f g : ι → List ρ}
    (h : ∀ i ∈ l, f i = g i) : l.flatMap f = l.flatMap g := by
  induction l with
  | nil => rfl
  | cons a tl ih =>
    rw [List.flatMap_cons, List.flatMap_cons, h a (by simp),
      ih (fun i hi => h i (by simp [hi]))]

/-- The block of `ApartmentPriceRatingAVG` rows a single reservation
generates (under `WF`): one row per review on its apartment carrying that
review's rating, or a single rating-0 row when the apartment has no
reviews. -/
def perRes (s : Store) (c : Reservation) : List APRRow :=
  if (revOn s c.apartment).isEmpty then
    [⟨(aptRowOf s c.apartment).id, aptRowOf s c.apartment,
      c.totalPrice / ((dateDiff c.endDate c.startDate : ℤ) : ℚ), 0⟩]
  else
    (revOn s c.apartment).map (fun v =>
      ⟨(aptRowOf s c.apartment).id, aptRowOf s c.apartment,
        c.totalPrice / ((dateDiff c.endDate c.startDate : ℤ) : ℚ),
        (v.rating : ℚ)⟩)

theorem append_eq_of {ρ : Type} {l₁ l₂ X : List ρ} (h₂ : l₂ = [])
    (h₁ : l₁ = X) : l₁ ++ l₂ = X := by
  rw [h₂, h₁, List.append_nil]

theorem apartmentPriceRatingAVG_eq (s : Store) (hwf : WF s) :
    apartmentPriceRatingAVG s = s.reservations.flatMap (perRes s) := by
  unfold apartmentPriceRatingAVG fullJoin
  simp only []
  rw [List.flatMap_append]
  apply append_eq_of
  · rw [List.flatMap_eq_nil_iff]
    intro x hx
    rw [List.mem_map] at hx
    obtain ⟨r, _, rfl⟩ := hx
    rfl
  · rw [List.flatMap_assoc]
    apply flatMap_congr
    intro c hc
    have hms := arfd_filter s hwf c.apartment
    obtain ⟨haf, haid⟩ := apartments_filter_eq hwf (hwf.resFKa c hc)
    by_cases hrev : revOn s c.apartment = []
    · rw [hms, hrev]
      simp only [List.map_nil, List.isEmpty_nil, if_true]
      simp only [List.flatMap_cons, List.flatMap_nil, List.append_nil]
      rw [perRes, if_pos (by rw [hrev]; rfl)]
      show (s.apartments.filter (fun b => decide (c.apartment = b.id))).map _ = _
      rw [haf]
      rfl
    · rw [hms]
      rw [if_neg (by
        intro hE
        rw [List.isEmpty_iff, List.map_eq_nil_iff] at hE
        exact hrev hE)]
      rw [perRes, if_neg (by
        intro hE
        rw [List.isEmpty_iff] at hE
        exact hrev hE)]
      rw [List.map_map, List.flatMap_map]
      apply flatMap_eq_map
      intro v _
      show (s.apartments.filter (fun b => decide (c.apartment = b.id))).map _ = _
      rw [haf]
      rfl

theorem perRes_ne_nil (s : Store) (c : Reservation) : perRes s c ≠ [] := by
  rw [perRes]
  by_cases h : (revOn s c.apartment).isEmpty
  · rw [if_pos h]
    simp
  · rw [if_neg h]
    intro hE
    rw [List.map_eq_nil_iff] at hE
    exact h (by rw [hE]; rfl)

theorem perRes_key (s : Store) (hwf : WF s) (c : Reservation)
    (hc : c ∈ s.reservations) :
    ∀ row ∈ perRes s c, row.apartment = c.apartment := by
  intro row hrow
  obtain ⟨haf, haid⟩ := apartments_filter_eq hwf (hwf.resFKa c hc)
  rw [perRes] at hrow
  by_cases h : (revOn s c.apartment).isEmpty
  · rw [if_pos h] at hrow
    rcases List.mem_singleton.mp hrow with rfl
    exact haid
  · rw [if_neg h] at hrow
    rw [List.mem_map] at hrow
    obtain ⟨v, _, rfl⟩ := hrow
    exact haid

theorem bestValue_keys (s : Store) (hwf : WF s) (x : ℤ) :
    x ∈ ((apartmentPriceRatingAVG s).map (fun r => r.apartment)).dedup
      ↔ ∃ r ∈ s.reservations, r.apartment = x := by
  rw [List.mem_dedup, apartmentPriceRatingAVG_eq s hwf, List.mem_map]
  constructor
  · rintro ⟨row, hrow, rfl⟩
    rw [List.mem_flatMap] at hrow
    obtain ⟨c, hc, hrowc⟩ := hrow
    exact ⟨c, hc, (perRes_key s hwf c hc row hrowc).symm⟩
  · rintro ⟨r, hr, rfl⟩
    obtain ⟨row, hrow⟩ := List.exists_mem_of_ne_nil _ (perRes_ne_nil s r)
    exact ⟨row, List.mem_flatMap.mpr ⟨r, hr, hrow⟩, perRes_key s hwf r hr row hrow⟩

theorem APR_filter_key (s : Store) (hwf : WF s) (x : ℤ) :
    (apartmentPriceRatingAVG s).filter (fun row => decide (row.apartment = x))
      = (resOn s x).flatMap (perRes s) := by
  rw [apartmentPriceRatingAVG_eq s hwf, resOn]
  apply flatMap_filter_blocks
  intro c hc
  by_cases h : c.apartment = x
  · rw [if_pos (decide_eq_true h)]
    apply List.filter_eq_self.mpr
    intro row hrow
    exact decide_eq_true ((perRes_key s hwf c hc row hrow).trans h)
  · rw [if_neg (by
      intro hd
      exact h (by
        have := hd
        rw [decide_eq_true_eq] at this
        exact this))]
    apply List.filter_eq_nil_iff.mpr
    intro row hrow hd
    rw [decide_eq_true_eq] at hd
    exact h ((perRes_key s hwf c hc row hrow).symm.trans hd)

theorem perRes_map_rating (s : Store) (c : Reservation) (x : ℤ)
    (hc : c.apartment = x) :
    (perRes s c).map APRRow.rating
      = if (revOn s x).isEmpty then [(0 : ℚ)]
        else (revOn s x).map (fun v => (v.rating : ℚ)) := by
  rw [perRes, hc]
  by_cases h : (revOn s x).isEmpty
  · rw [if_pos h, if_pos h]
    rfl
  · rw [if_neg h, if_neg h, List.map_map]
    rfl

theorem perRes_map_ppn (s : Store) (c : Reservation) (x : ℤ)
    (hc : c.apartment = x) :
    (perRes s c).map APRRow.pricePerNight
      = if (revOn s x).isEmpty then [pricePerNight c]
        else (revOn s x).map (fun _ => pricePerNight c) := by
  rw [perRes, hc]
  by_cases h : (revOn s x).isEmpty
  · rw [if_pos h, if_pos h]
    rfl
  · rw [if_neg h, if_neg h, List.map_map]
    rfl

theorem perRes_length_q (s : Store) (c : Reservation) (x : ℤ)
    (hc : c.apartment = x) :
    ((perRes s c).length : ℚ)
      = if (revOn s x).isEmpty then 1 else ((revOn s x).length : ℚ) := by
  rw [perRes, hc]
  by_cases h : (revOn s x).isEmpty
  · rw [if_pos h, if_pos h]
    rfl
  · rw [if_neg h, if_neg h, List.length_map]

theorem sum_map_const_q {ι : Type} (l : List ι) (q : ℚ) :
    (l.map (fun _ => q)).sum = (l.length : ℚ) * q := by
  induction l with
  | nil => simp
  | cons a tl ih =>
    rw [List.map_cons, List.sum_cons, ih, List.length_cons]
    push_cast
    ring

theorem score_algebra (m n Sr Sp : ℚ) (hm : m ≠ 0) (hn : n ≠ 0) :
    ((m * Sr) / (m * n)) / ((n * Sp) / (m * n)) = (Sr / n) / (Sp / m) := by
  rw [mul_div_mul_left Sr n hm]
  rw [show m * n = n * m from mul_comm m n]
  rw [mul_div_mul_left Sp m hn]

theorem bestValue_group_val (s : Store) (hwf : WF s) (x : ℤ)
    (hx : ∃ r ∈ s.reservations, r.apartment = x) :
    avgQ (((apartmentPriceRatingAVG s).filter
        (fun row => decide (row.apartment = x))).map APRRow.rating)
      / avgQ (((apartmentPriceRatingAVG s).filter
        (fun row => decide (row.apartment = x))).map APRRow.pricePerNight)
      = valueScore s x := by
  rw [APR_filter_key s hwf x]
  have hm0 : resOn s x ≠ [] := by
    obtain ⟨r, hr, hrx⟩ := hx
    exact List.ne_nil_of_mem (List.mem_filter.mpr ⟨hr, decide_eq_true hrx⟩)
  have hmQ : ((resOn s x).length : ℚ) ≠ 0 := by
    rw [Nat.cast_ne_zero]
    intro hL
    exact hm0 (List.length_eq_zero.mp hL)
  have hkey : ∀ c ∈ resOn s x, c.apartment = x := by
    intro c hc
    have h := (List.mem_filter.mp hc).2
    rw [decide_eq_true_eq] at h
    exact h
  by_cases hrev : revOn s x = []
  · have hrat : ((resOn s x).flatMap (perRes s)).map APRRow.rating
        = (resOn s x).map (fun _ => (0 : ℚ)) := by
      rw [List.map_flatMap]
      apply flatMap_eq_map
      intro c hc
      rw [perRes_map_rating s c x (hkey c hc), if_pos (by rw [hrev]; rfl)]
    rw [hrat]
    rw [show avgQ ((resOn s x).map (fun _ => (0 : ℚ))) = 0 by
      rw [avgQ, sum_map_const_q, mul_zero, zero_div]]
    rw [zero_div, valueScore, if_pos hrev, zero_div]
  · have hnQ : ((revOn s x).length : ℚ) ≠ 0 := by
      rw [Nat.cast_ne_zero]
      intro hL
      exact hrev (List.length_eq_zero.mp hL)
    have hne : ¬ ((revOn s x).isEmpty = true) := by
      intro hE
      rw [List.isEmpty_iff] at hE
      exact hrev hE
    have hrat : ((resOn s x).flatMap (perRes s)).map APRRow.rating
        = (resOn s x).flatMap (fun _ =>
            (revOn s x).map (fun v => (v.rating : ℚ))) := by
      rw [List.map_flatMap]
      apply flatMap_congr
      intro c hc
      rw [perRes_map_rating s c x (hkey c hc), if_neg hne]
    have hppn : ((resOn s x).flatMap (perRes s)).map APRRow.pricePerNight
        = (resOn s x).flatMap (fun c =>
            (revOn s x).map (fun _ => pricePerNight c)) := by
      rw [List.map_flatMap]
      apply flatMap_congr
      intro c hc
      rw [perRes_map_ppn s c x (hkey c hc), if_neg hne]
    have hsum_r : ((resOn s x).flatMap (fun _ =>
        (revOn s x).map (fun v => (v.rating : ℚ)))).sum
        = ((resOn s x).length : ℚ)
          * ((revOn s x).map (fun v => (v.rating : ℚ))).sum := by
      rw [sum_flatMap_q, sum_map_const_q]
    have hsum_p : ((resOn s x).flatMap (fun c =>
        (revOn s x).map (fun _ => pricePerNight c))).sum
        = ((revOn s x).length : ℚ) * ((resOn s x).map pricePerNight).sum := by
      rw [sum_flatMap_q]
      rw [show (resOn s x).map (fun c =>
            ((revOn s x).map (fun _ => pricePerNight c)).sum)
          = (resOn s x).map (fun c =>
            ((revOn s x).length : ℚ) * pricePerNight c) from
        List.map_congr_left (fun c _ => sum_map_const_q _ _)]
      rw [List.sum_map_mul_left]
    have hlen_r : ((((resOn s x).flatMap (fun _ =>
        (revOn s x).map (fun v => (v.rating : ℚ)))).length) : ℚ)
        = ((resOn s x).length : ℚ) * ((revOn s x).length : ℚ) := by
      rw [length_flatMap_q]
      rw [show (resOn s x).map (fun i =>
            ((((revOn s x).map (fun v => (v.rating : ℚ)))).length : ℚ))
          = (resOn s x).map (fun _ => ((revOn s x).length : ℚ)) from
        List.map_congr_left (fun c _ => by rw [List.length_map])]
      rw [sum_map_const_q]
    have hlen_p : ((((resOn s x).flatMap (fun c =>
        (revOn s x).map (fun _ => pricePerNight c))).length) : ℚ)
        = ((resOn s x).length : ℚ) * ((revOn s x).length : ℚ) := by
      rw [length_flatMap_q]
      rw [show (resOn s x).map (fun c =>
            ((((revOn s x).map (fun _ => pricePerNight c))).length : ℚ))
          = (resOn s x).map (fun _ => ((revOn s x).length : ℚ)) from
        List.map_congr_left (fun c _ => by rw [List.length_map])]
      rw [sum_map_const_q]
    rw [hrat, hppn]
    simp only [avgQ, valueScore]
    rw [hsum_r, hsum_p, hlen_r, hlen_p, if_neg hrev, List.length_map,
      List.length_map]
    exact score_algebra _ _ _ _ hmQ hnQ

theorem head_sorted_argmax (KS : List ℤ) (f : ℤ → ℚ) :
    ((((KS.map (fun x => (x, f x))).insertionSort byValueDesc).head?.map
        Prod.fst = none) ↔ KS = []) ∧
    (∀ x, ((KS.map (fun x => (x, f x))).insertionSort byValueDesc).head?.map
        Prod.fst = some x →
      x ∈ KS ∧ ∀ y ∈ KS, f y ≤ f x) := by
  have hperm := List.perm_insertionSort byValueDesc
    (KS.map (fun x => (x, f x)))
  have hsorted := List.sorted_insertionSort byValueDesc
    (KS.map (fun x => (x, f x)))
  constructor
  · rw [Option.map_eq_none', List.head?_eq_none_iff]
    constructor
    · intro hnil
      rw [hnil] at hperm
      have hmapnil := hperm.symm.eq_nil
      rw [List.map_eq_nil_iff] at hmapnil
      exact hmapnil
    · intro hnil
      rw [hnil]
      rfl
  · intro x hx
    rw [Option.map_eq_some'] at hx
    obtain ⟨p, hp, hpx⟩ := hx
    rcases hsortlist : (KS.map (fun x => (x, f x))).insertionSort byValueDesc
      with _ | ⟨q, t⟩
    · rw [hsortlist] at hp
      cases hp
    · rw [hsortlist] at hp hperm hsorted
      rw [List.head?_cons] at hp
      have hq : q = p := Option.some.inj hp
      subst hq
      have hqmem : q ∈ KS.map (fun x => (x, f x)) :=
        hperm.mem_iff.mp (List.mem_cons_self q t)
      rw [List.mem_map] at hqmem
      obtain ⟨x', hx', hqeq⟩ := hqmem
      have hx1 : x' = x := by rw [← hpx, ← hqeq]
      subst hx1
      refine ⟨hx', ?_⟩
      intro y hy
      have hq2 : q.2 = f x' := by rw [← hqeq]
      have hymem : (y, f y) ∈ q :: t :=
        hperm.mem_iff.mpr (List.mem_map_of_mem _ hy)
      rcases List.mem_cons.mp hymem with heq | hyt
      · exact le_of_eq ((congrArg Prod.snd heq.symm).symm.trans hq2)
      · have hrel := List.rel_of_sorted_cons hsorted _ hyt
        have h2 : f y ≤ q.2 := hrel
        rw [hq2] at h2
        exact h2

/-- Counterexample store for C3: one apartment with a reservation and no
reviews anywhere. -/
def c3Store : Store :=
  { owners := [], apartments := [⟨1, "addr", "city", "cty", 10⟩],
    customers := [⟨1, "cust"⟩],
    reservations := [⟨1, 1, ⟨2024, 1, 5⟩, ⟨2024, 1, 10⟩, 100⟩],
    reviews := [], links := [] }

/-- C3 counterexample: the store has no reviews at all, so the claim says no
apartment qualifies and none may be returned; the code still returns
apartment 1 (its rating side is `COALESCE`d to 0, not excluded). -/
theorem C3_best_value_counterexample :
    WF c3Store ∧ c3Store.reviews = [] ∧
    best_value_for_money c3Store = some 1 := by
  exact ⟨by decide, by decide, by with_unfolding_all decide⟩

/-- C3 (amended): `best_value_for_money` considers exactly the apartments
with at least one reservation — an apartment with reservations but no
reviews is scored with mean rating 0, not excluded; apartments with no
reservations are never returned — and it returns `none` exactly on a store
with no reservations, otherwise some apartment of maximal score, where the
score is mean rating (0 without reviews) divided by mean price per night
(`valueScore`). -/
theorem C3_best_value_amended (s : Store) (hwf : WF s) :
    (best_value_for_money s = none ↔ s.reservations = []) ∧
    (∀ x, best_value_for_money s = some x →
      (∃ r ∈ s.reservations, r.apartment = x) ∧
      ∀ y, (∃ r ∈ s.reservations, r.apartment = y) →
        valueScore s y ≤ valueScore s x) := by
  have hgroups : sqlGroup (apartmentPriceRatingAVG s) (fun r => r.apartment)
      (fun rows => avgQ (rows.map APRRow.rating)
        / avgQ (rows.map APRRow.pricePerNight))
      = ((apartmentPriceRatingAVG s).map (fun r => r.apartment)).dedup.map
          (fun x => (x, valueScore s x)) := by
    rw [sqlGroup]
    apply List.map_congr_left
    intro x hx
    congr 1
    exact bestValue_group_val s hwf x ((bestValue_keys s hwf x).mp hx)
  have hbv : best_value_for_money s
      = ((((apartmentPriceRatingAVG s).map
          (fun r => r.apartment)).dedup.map
            (fun x => (x, valueScore s x))).insertionSort byValueDesc).head?.map
              Prod.fst := by
    simp only [best_value_for_money]
    rw [hgroups]
  have hargmax := head_sorted_argmax
    (((apartmentPriceRatingAVG s).map (fun r => r.apartment)).dedup)
    (valueScore s)
  constructor
  · rw [hbv, hargmax.1]
    constructor
    · intro hks
      by_contra hres
      obtain ⟨r, hr⟩ := List.exists_mem_of_ne_nil _ hres
      have hm := (bestValue_keys s hwf r.apartment).mpr ⟨r, hr, rfl⟩
      rw [hks] at hm
      cases hm
    · intro hres
      rw [show apartmentPriceRatingAVG s = [] from by
        rw [apartmentPriceRatingAVG_eq s hwf, hres]
        rfl]
      rfl
  · intro x hx
    rw [hbv] at hx
    obtain ⟨hxks, hmax⟩ := hargmax.2 x hx
    refine ⟨(bestValue_keys s hwf x).mp hxks, ?_⟩
    intro y hy
    exact hmax y ((bestValue_keys s hwf y).mpr hy)

/-- Concrete store for the C3 witness: apartment 1 has a reservation and no
reviews (score 0), apartment 2 has a reservation at 20 per night and one
review with rating 8 (score 8/20). -/
def c3wStore : Store :=
  { owners := [],
    apartments := [⟨1, "a1", "city", "cty", 10⟩, ⟨2, "a2", "city", "cty", 20⟩],
    customers := [⟨1, "cust"⟩],
    reservations := [⟨1, 1, ⟨2024, 1, 5⟩, ⟨2024, 1, 10⟩, 100⟩,
      ⟨1, 2, ⟨2024, 1, 5⟩, ⟨2024, 1, 10⟩, 100⟩],
    reviews := [⟨1, 2, ⟨2024, 2, 1⟩, 8, "t"⟩],
    links := [] }

set_option maxRecDepth 8000 in
theorem C3_best_value_amended_witness :
    (∃ r ∈ c3wStore.reservations, r.apartment = 2) ∧
    (∀ y, (∃ r ∈ c3wStore.reservations, r.apartment = y) →
      valueScore c3wStore y ≤ valueScore c3wStore 2) :=
  (C3_best_value_amended c3wStore (by decide)).2 2 (by with_unfolding_all decide)

/-- Concrete store for the C5 witness: two reservations ending in March 2024
(prices 100 and 60) and one ending in May 2023. -/
def c5Store : Store :=
  { owners := [], apartments := [⟨1, "addr", "city", "cty", 10⟩],
    customers := [⟨1, "cust"⟩],
    reservations := [⟨1, 1, ⟨2024, 2, 5⟩, ⟨2024, 3, 10⟩, 100⟩,
      ⟨1, 1, ⟨2024, 3, 12⟩, ⟨2024, 3, 20⟩, 60⟩,
      ⟨1, 1, ⟨2023, 5, 1⟩, ⟨2023, 5, 10⟩, 40⟩],
    reviews := [], links := [] }

theorem C5_profit_per_month_witness :
    profit_per_month c5Store 2024
        = monthsList.map (fun m => (m, specProfit c5Store 2024 m)) ∧
    ((profit_per_month c5Store 2024).map Prod.snd).sum
      = (15 / 100 : ℚ) * ((c5Store.reservations.filter
          (fun r => decide (r.endDate.y = 2024))).map
            Reservation.totalPrice).sum :=
  C5_profit_per_month c5Store 2024 (by decide)
